import Mathlib

/-!
Shallow embedding of the `@zeeze/game-engine` package (zeeze-cards repository):
`types.ts`, `mana.ts`, `abilities.ts`, `combat.ts`, `phases.ts`, `engine.ts`.

Modelling conventions:
* TypeScript numbers that stay non-negative in the engine (mana counts,
  damage, power/toughness, turn counters) are `Nat`; life totals, which the
  engine can drive negative, are `Int`.
* `Date.now()` / `new Date()` values are passed in explicitly as a `now : Nat`
  parameter; `Math.random()` draws in the Fisher-Yates shuffle are passed in as
  a function `randJ : Nat → Nat` giving the drawn index `j` for each loop
  index `i` (in a real run `0 ≤ j ≤ i`; out-of-range draws hit the
  `undefined` guard in `shuffleArray` and skip the swap, which is modelled).
* `throw new Error(...)` is modelled as `Except GameError`.
* Several engine functions mutate the caller's snapshot in place (array
  `splice`/`push`, field assignment on shared card/player objects) and then
  return a shallow copy `{...state, ...}`.  For those functions the embedding
  `fooM` returns a pair: the first component is the value of the snapshot the
  caller passed in as observed after the call (reflecting the in-place
  mutations that happened before the return or the throw), the second is the
  returned value or the thrown error.  The plain wrapper `foo` projects the
  returned value.
* JavaScript falsy checks on numbers and strings (`!card.template.power`,
  `!creatureId`) are modelled as `= 0` / `= ""` tests in addition to the
  `Option` case, matching JS semantics where `0`, `""` and `undefined` are
  all falsy.
-/

/-- `CardClass` from types.ts. -/
inductive CardClass
  | Creature | Sorcery | Instant | Artifact | Enchantment | Land | Planeswalker
  deriving DecidableEq, Repr

/-- `AbilityKind` from types.ts. -/
inductive AbilityKind
  | Keyword | Activated | Triggered | Static
  deriving DecidableEq, Repr

/-- `Phase` from types.ts.  The TypeScript literal `"end"` is a Lean keyword,
so the constructor is named `endPhase`. -/
inductive Phase
  | untap | upkeep | draw | main1
  | combat_begin | combat_declare_attackers | combat_declare_blockers
  | combat_damage | combat_end
  | main2 | endPhase
  deriving DecidableEq, Repr

/-- `Zone` from types.ts. -/
inductive Zone
  | library | hand | battlefield | graveyard | exile | stack
  deriving DecidableEq, Repr

/-- `CombatState.step` values (`"end"` again renamed to `endStep`);
the TypeScript `null` is `Option.none`. -/
inductive CombatStep
  | declare_attackers | declare_blockers | damage | endStep
  deriving DecidableEq, Repr

/-- `GameState.status` values from types.ts. -/
inductive GameStatus
  | waiting | in_progress | completed
  deriving DecidableEq, Repr

/-- `ManaPool` from types.ts. -/
structure ManaPool where
  W : Nat
  U : Nat
  B : Nat
  R : Nat
  G : Nat
  C : Nat
  deriving DecidableEq, Repr

/-- `ManaCost` from types.ts. -/
structure ManaCost where
  W : Nat
  U : Nat
  B : Nat
  R : Nat
  G : Nat
  C : Nat
  generic : Nat
  deriving DecidableEq, Repr

/-- `CardAbility` from types.ts (the engine reads only `code` and `kind`). -/
structure CardAbility where
  code : String
  kind : AbilityKind
  deriving DecidableEq, Repr

/-- `CardTemplate` from types.ts (fields the engine reads). -/
structure CardTemplate where
  id : Nat
  name : String
  class' : CardClass
  manaCost : String
  power : Option Nat
  toughness : Option Nat
  abilities : List CardAbility
  deriving DecidableEq, Repr

/-- The two built-in counter kinds on `CardInPlay.counters`. -/
structure Counters where
  plusOnePlusOne : Nat
  minusOneMinusOne : Nat
  deriving DecidableEq, Repr

/-- `CardInPlay` from types.ts. -/
structure CardInPlay where
  instanceId : String
  template : CardTemplate
  zone : Zone
  ownerId : String
  controllerId : String
  isTapped : Bool
  counters : Counters
  damageMarked : Nat
  summoningSickness : Bool
  attachedTo : Option String
  deriving DecidableEq, Repr

/-- The `zones` record of a `Player`. -/
structure Zones where
  library : List CardInPlay
  hand : List CardInPlay
  battlefield : List CardInPlay
  graveyard : List CardInPlay
  exile : List CardInPlay
  deriving DecidableEq, Repr

/-- `Player` from types.ts. -/
structure Player where
  id : String
  name : String
  life : Int
  manaPool : ManaPool
  maxHandSize : Nat
  hasPlayedLand : Bool
  hasPriority : Bool
  zones : Zones
  deriving DecidableEq, Repr

/-- `StackItem` from types.ts (the engine only tests `stack.length === 0`,
so only the identifier is carried). -/
structure StackItem where
  id : String
  deriving DecidableEq, Repr

/-- `Attacker` from types.ts. -/
structure Attacker where
  instanceId : String
  defendingPlayerId : String
  blockedBy : List String
  deriving DecidableEq, Repr

/-- `Blocker` from types.ts (`damageOrder` is never written by the engine). -/
structure Blocker where
  instanceId : String
  blocking : String
  damageOrder : Option Nat
  deriving DecidableEq, Repr

/-- `CombatState` from types.ts. -/
structure CombatState where
  attackers : List Attacker
  blockers : List Blocker
  step : Option CombatStep
  deriving DecidableEq, Repr

/-- `GameState` from types.ts (`createdAt`/`updatedAt` are clock readings). -/
structure GameState where
  id : String
  players : List Player
  currentPlayerIndex : Nat
  activePlayerId : String
  priorityPlayerId : String
  phase : Phase
  turn : Nat
  stack : List StackItem
  combat : CombatState
  status : GameStatus
  winner : Option String
  createdAt : Nat
  updatedAt : Nat
  deriving DecidableEq, Repr

/-- The player descriptors passed to `createGame`. -/
structure PlayerSpec where
  id : String
  name : String
  deck : List CardTemplate
  deriving DecidableEq, Repr

/-- One entry of a `DECLARE_BLOCKERS` action. -/
structure Block where
  blockerId : String
  attackerId : String
  deriving DecidableEq, Repr

/-- `GameAction` from types.ts. -/
inductive GameAction
  | PASS_PRIORITY
  | PASS_PHASE
  | PLAY_LAND (instanceId : String)
  | CAST_SPELL (instanceId : String) (targets : Option (List String))
  | ACTIVATE_ABILITY (instanceId : String) (abilityCode : String)
      (targets : Option (List String))
  | DECLARE_ATTACKERS (attackers : List String)
  | DECLARE_BLOCKERS (blocks : List Block)
  | CONCEDE
  | MULLIGAN
  deriving DecidableEq, Repr

/-- The validation errors thrown by the engine (`throw new Error(...)` sites). -/
inductive GameError
  | invalidPlayerCount
  | noPlayersInGame
  | gameAlreadyCompleted
  | noPriority
  | unknownActionType
  | cannotPlayLandNow
  | playerNotFound
  | alreadyPlayedLand
  | cardNotFoundInHand
  | cardIsNotALand
  | cannotCastAtThisTime
  | notEnoughMana
  | notYourTurn
  | notDeclareAttackersPhase
  | defendingPlayerNotFoundHandle
  | notDefendingPlayer
  | winnerNotFoundConcede
  | winnerNotFound
  | wrongPhaseDeclareAttackers
  | activePlayerNotFound
  | creatureIdUndefined (i : Nat)
  | noDefenderSpecified (creatureId : String)
  | creatureNotFoundOnBattlefield (creatureId : String)
  | creatureCannotAttack (name : String)
  | wrongPhaseDeclareBlockers
  | defendingPlayerNotFound
  | blockerNotFound (blockerId : String)
  | attackerNotFound (attackerId : String)
  | attackerCardNotFound (attackerId : String)
  | cannotBlock (blockerName attackerName : String)
  | wrongPhaseResolveDamage
  | activePlayerIndexOutOfRange
  | priorityPlayerIndexOutOfRange
  deriving DecidableEq, Repr

instance {ε α : Type} [DecidableEq ε] [DecidableEq α] : DecidableEq (Except ε α) := by
  intro a b
  cases a <;> cases b
  case error.error x y =>
    by_cases h : x = y
    · exact isTrue (by rw [h])
    · exact isFalse (by intro hc; cases hc; exact h rfl)
  case ok.ok x y =>
    by_cases h : x = y
    · exact isTrue (by rw [h])
    · exact isFalse (by intro hc; cases hc; exact h rfl)
  case error.ok x y => exact isFalse (by intro h; cases h)
  case ok.error x y => exact isFalse (by intro h; cases h)

/- ============================ list helpers ============================ -/

/-- Replace the first element satisfying `pred` by its image under `f`;
models in-place mutation of the object returned by `Array.prototype.find` /
`find?`. -/
def updateFirst {α : Type} (l : List α) (pred : α → Bool) (f : α → α) : List α :=
  match l with
  | [] => []
  | x :: xs => if pred x then f x :: xs else x :: updateFirst xs pred f

/-- Remove the first element satisfying `pred`; models
`splice(findIndex(pred), 1)`. -/
def removeFirst {α : Type} (l : List α) (pred : α → Bool) : List α :=
  match l with
  | [] => []
  | x :: xs => if pred x then xs else x :: removeFirst xs pred

/-- `Array.prototype.map((x, i) => ...)` starting at index `n`. -/
def mapWithIndexFrom {α β : Type} (f : Nat → α → β) (n : Nat) : List α → List β
  | [] => []
  | x :: xs => f n x :: mapWithIndexFrom f (n + 1) xs

/-- `Array.prototype.map((x, i) => ...)`. -/
def mapWithIndex {α β : Type} (f : Nat → α → β) (l : List α) : List β :=
  mapWithIndexFrom f 0 l

/-- Decimal digit character (`n < 10` in every use). -/
def digitChar (n : Nat) : Char :=
  match n with
  | 0 => '0' | 1 => '1' | 2 => '2' | 3 => '3' | 4 => '4'
  | 5 => '5' | 6 => '6' | 7 => '7' | 8 => '8' | _ => '9'

/-- Decimal digits of `n`, most significant first, with explicit fuel so the
recursion is structural (any `fuel > n` yields the digits of `n`). -/
def natToCharsAux : Nat → Nat → List Char
  | 0, _ => []
  | fuel + 1, n =>
    if n < 10 then [digitChar n]
    else natToCharsAux fuel (n / 10) ++ [digitChar (n % 10)]

/-- Decimal digits of `n`, most significant first (JS number-to-string for
non-negative integers, as used by template literals and `toString()`). -/
def natToChars (n : Nat) : List Char :=
  natToCharsAux (n + 1) n

/-- JS decimal rendering of a non-negative number. -/
def natToString (n : Nat) : String :=
  String.mk (natToChars n)

/-- Numeric value of a decimal digit character. -/
def digitVal (c : Char) : Nat :=
  c.toNat - 48

/-- Decimal value of a digit string (left fold); inverse of `natToChars`. -/
def charsVal (l : List Char) : Nat :=
  l.foldl (fun acc c => acc * 10 + digitVal c) 0

/- ============================ mana.ts ============================ -/

/-- `createEmptyManaPool` from mana.ts. -/
def createEmptyManaPool : ManaPool :=
  { W := 0, U := 0, B := 0, R := 0, G := 0, C := 0 }

/-- `parseInt(s, 10)` for a string beginning with a digit: the value of the
maximal digit prefix. -/
def natOfDigitPrefix : List Char → Nat → Nat
  | [], acc => acc
  | c :: rest, acc =>
    if c.isDigit then natOfDigitPrefix rest (acc * 10 + digitVal c) else acc

/-- The six colour letters recognised by `parseManaString`. -/
def isManaLetter (c : Char) : Bool :=
  c = 'W' || c = 'U' || c = 'B' || c = 'R' || c = 'G' || c = 'C'

/-- Add one pip of colour `c` to `cost` (`cost[char]++`). -/
def bumpColor (c : Char) (cost : ManaCost) : ManaCost :=
  if c = 'W' then { cost with W := cost.W + 1 }
  else if c = 'U' then { cost with U := cost.U + 1 }
  else if c = 'B' then { cost with B := cost.B + 1 }
  else if c = 'R' then { cost with R := cost.R + 1 }
  else if c = 'G' then { cost with G := cost.G + 1 }
  else { cost with C := cost.C + 1 }

/-- The scanning loop of `parseManaString` from mana.ts.  When the character
at `i` is a digit and the character at `i + 1` is also a digit, the inner
look-ahead loop captures `nextChar = costString[i + 1]` once, so its condition
stays true and it consumes the entire rest of the string into `numStr`;
`parseInt(numStr, 10)` then takes the maximal digit prefix and scanning ends. -/
def parseManaLoop : List Char → ManaCost → ManaCost
  | [], cost => cost
  | c :: rest, cost =>
    if c.isDigit then
      match rest with
      | [] => { cost with generic := cost.generic + digitVal c }
      | d :: _ =>
        if d.isDigit then
          { cost with generic := cost.generic + natOfDigitPrefix (c :: rest) 0 }
        else parseManaLoop rest { cost with generic := cost.generic + digitVal c }
    else if isManaLetter c then parseManaLoop rest (bumpColor c cost)
    else parseManaLoop rest cost

/-- `parseManaString` from mana.ts. -/
def parseManaString (costString : String) : ManaCost :=
  parseManaLoop costString.data { W := 0, U := 0, B := 0, R := 0, G := 0, C := 0, generic := 0 }

/-- `calculateCMC` from mana.ts. -/
def calculateCMC (cost : ManaCost) : Nat :=
  cost.generic + cost.W + cost.U + cost.B + cost.R + cost.G + cost.C

/-- `canPayCost` from mana.ts. -/
def canPayCost (pool : ManaPool) (cost : ManaCost) : Bool :=
  if cost.W > pool.W then false
  else if cost.U > pool.U then false
  else if cost.B > pool.B then false
  else if cost.R > pool.R then false
  else if cost.G > pool.G then false
  else if cost.C > pool.C then false
  else
    let coloredUsed := cost.W + cost.U + cost.B + cost.R + cost.G + cost.C
    let totalAvailable := pool.W + pool.U + pool.B + pool.R + pool.G + pool.C
    decide (cost.generic ≤ totalAvailable - coloredUsed)

/-- `payManaCost` from mana.ts. -/
def payManaCost (pool : ManaPool) (cost : ManaCost) : Option ManaPool :=
  if ¬ canPayCost pool cost then none
  else
    let p1 : ManaPool :=
      { W := pool.W - cost.W, U := pool.U - cost.U, B := pool.B - cost.B,
        R := pool.R - cost.R, G := pool.G - cost.G, C := pool.C - cost.C }
    let g0 := cost.generic
    let colorlessUsed := min g0 p1.C
    let p2 := { p1 with C := p1.C - colorlessUsed }
    let g1 := g0 - colorlessUsed
    let usedW := min g1 p2.W
    let p3 := { p2 with W := p2.W - usedW }
    let g2 := g1 - usedW
    let usedU := min g2 p3.U
    let p4 := { p3 with U := p3.U - usedU }
    let g3 := g2 - usedU
    let usedB := min g3 p4.B
    let p5 := { p4 with B := p4.B - usedB }
    let g4 := g3 - usedB
    let usedR := min g4 p5.R
    let p6 := { p5 with R := p5.R - usedR }
    let g5 := g4 - usedR
    let usedG := min g5 p6.G
    let p7 := { p6 with G := p6.G - usedG }
    some p7

/-- `emptyManaPool` from mana.ts (ignores its argument). -/
def emptyManaPool (_pool : ManaPool) : ManaPool :=
  createEmptyManaPool

/-- `getTotalMana` from mana.ts. -/
def getTotalMana (pool : ManaPool) : Nat :=
  pool.W + pool.U + pool.B + pool.R + pool.G + pool.C

/-- `formatManaCost` from mana.ts. -/
def formatManaCost (cost : ManaCost) : String :=
  let result :=
    (if cost.generic > 0 then natToString cost.generic else "")
    ++ String.mk (List.replicate cost.W 'W')
    ++ String.mk (List.replicate cost.U 'U')
    ++ String.mk (List.replicate cost.B 'B')
    ++ String.mk (List.replicate cost.R 'R')
    ++ String.mk (List.replicate cost.G 'G')
    ++ String.mk (List.replicate cost.C 'C')
  if result = "" then "0" else result

/- ============================ abilities.ts ============================ -/

/-- `hasAbility` from abilities.ts. -/
def hasAbility (card : CardInPlay) (abilityCode : String) : Bool :=
  card.template.abilities.any (fun ability => ability.code = abilityCode)

/-- `hasFlying` from abilities.ts. -/
def hasFlying (card : CardInPlay) : Bool := hasAbility card "FLYING"

/-- `hasHaste` from abilities.ts. -/
def hasHaste (card : CardInPlay) : Bool := hasAbility card "HASTE"

/-- `hasVigilance` from abilities.ts. -/
def hasVigilance (card : CardInPlay) : Bool := hasAbility card "VIGILANCE"

/-- `hasTrample` from abilities.ts. -/
def hasTrample (card : CardInPlay) : Bool := hasAbility card "TRAMPLE"

/-- `hasDoubleStrike` from abilities.ts. -/
def hasDoubleStrike (card : CardInPlay) : Bool := hasAbility card "DOUBLE_STRIKE"

/-- `hasFirstStrike` from abilities.ts. -/
def hasFirstStrike (card : CardInPlay) : Bool :=
  hasAbility card "FIRST_STRIKE" || hasDoubleStrike card

/-- `hasDeathtouch` from abilities.ts. -/
def hasDeathtouch (card : CardInPlay) : Bool := hasAbility card "DEATHTOUCH"

/-- `hasLifelink` from abilities.ts. -/
def hasLifelink (card : CardInPlay) : Bool := hasAbility card "LIFELINK"

/-- `hasDefender` from abilities.ts. -/
def hasDefender (card : CardInPlay) : Bool := hasAbility card "DEFENDER"

/-- `canAttack` from abilities.ts. -/
def canAttack (card : CardInPlay) : Bool :=
  if card.template.class' ≠ CardClass.Creature then false
  else if card.isTapped then false
  else if hasDefender card then false
  else if card.summoningSickness && !hasHaste card then false
  else true

/-- `canBlock` from abilities.ts. -/
def canBlock (blocker attacker : CardInPlay) : Bool :=
  if blocker.template.class' ≠ CardClass.Creature then false
  else if blocker.isTapped then false
  else if hasFlying attacker && (!hasFlying blocker && !hasAbility blocker "REACH") then false
  else true

/-- `getPower` from abilities.ts.  The JavaScript guard
`if (!card.template.power) return 0` is falsy for `undefined` and for `0`,
so a present-but-zero base power also short-circuits to 0. -/
def getPower (card : CardInPlay) : Nat :=
  match card.template.power with
  | none => 0
  | some p =>
    if p = 0 then 0
    else p + card.counters.plusOnePlusOne - card.counters.minusOneMinusOne

/-- `getToughness` from abilities.ts (same falsy guard as `getPower`). -/
def getToughness (card : CardInPlay) : Nat :=
  match card.template.toughness with
  | none => 0
  | some t =>
    if t = 0 then 0
    else t + card.counters.plusOnePlusOne - card.counters.minusOneMinusOne

/-- `shouldDie` from abilities.ts. -/
def shouldDie (card : CardInPlay) : Bool :=
  let toughness := getToughness card
  if toughness = 0 then true
  else decide (toughness ≤ card.damageMarked)

/- ============================ phases.ts ============================ -/

/-- The `phaseOrder` array in `getNextPhase` from phases.ts. -/
def phaseOrder : List Phase :=
  [Phase.untap, Phase.upkeep, Phase.draw, Phase.main1,
   Phase.combat_begin, Phase.combat_declare_attackers,
   Phase.combat_declare_blockers, Phase.combat_damage, Phase.combat_end,
   Phase.main2, Phase.endPhase]

/-- `getNextPhase` from phases.ts.  `indexOf` returning `-1` and the last
index both map to `untap`; the `phaseOrder[currentIndex + 1]!` access is
always in range, the `getD` default is unreachable. -/
def getNextPhase (currentPhase : Phase) : Phase :=
  let currentIndex := phaseOrder.indexOf currentPhase
  if currentIndex ≥ phaseOrder.length - 1 then Phase.untap
  else (phaseOrder[currentIndex + 1]?).getD Phase.untap

/-- `isMainPhase` from phases.ts. -/
def isMainPhase (phase : Phase) : Bool :=
  phase = Phase.main1 || phase = Phase.main2

/-- `isCombatPhase` from phases.ts (`phase.startsWith("combat_")`). -/
def isCombatPhase (phase : Phase) : Bool :=
  match phase with
  | Phase.combat_begin | Phase.combat_declare_attackers
  | Phase.combat_declare_blockers | Phase.combat_damage
  | Phase.combat_end => true
  | _ => false

/-- The per-player update performed inside `advancePhase`'s
`state.players.map((player, index) => ...)`, in source order: untap the
entering player's battlefield, draw on entering `draw`, empty every mana pool
on entering `end`, reset the entering player's `hasPlayedLand` on `untap`.
The `{...player}` spread shares the nested `zones` object, so zone updates
are in-place on the original player as well; only the returned value is
modelled here. -/
def advancePlayerUpdate (nextPhase : Phase) (newPlayerIndex : Nat)
    (index : Nat) (player : Player) : Player :=
  let p1 :=
    if nextPhase = Phase.untap ∧ index = newPlayerIndex then
      let bf :=
        player.zones.battlefield.map
          (fun card => { card with isTapped := false, summoningSickness := false })
      { player with zones := { player.zones with battlefield := bf } }
    else player
  let p2 :=
    if nextPhase = Phase.draw ∧ index = newPlayerIndex then
      match p1.zones.library with
      | [] => p1
      | drawnCard :: rest =>
        { p1 with zones :=
            { p1.zones with
                library := rest,
                hand := p1.zones.hand ++ [{ drawnCard with zone := Zone.hand }] } }
    else p1
  let p3 :=
    if nextPhase = Phase.endPhase then { p2 with manaPool := emptyManaPool p2.manaPool }
    else p2
  let p4 :=
    if nextPhase = Phase.untap ∧ index = newPlayerIndex then { p3 with hasPlayedLand := false }
    else p3
  p4

/-- `advancePhase` from phases.ts.  The only error is the modelled
`TypeError` from `state.players[newPlayerIndex]!.id` when the player list is
empty at a turn boundary. -/
def advancePhase (state : GameState) (now : Nat) : Except GameError GameState :=
  let currentPhase := state.phase
  let nextPhase := getNextPhase currentPhase
  let newTurn := if currentPhase = Phase.endPhase then state.turn + 1 else state.turn
  let newPlayerIndex :=
    if currentPhase = Phase.endPhase then (state.currentPlayerIndex + 1) % state.players.length
    else state.currentPlayerIndex
  let newActivePlayerIdOpt : Option String :=
    if currentPhase = Phase.endPhase then (state.players[newPlayerIndex]?).map (fun p => p.id)
    else some state.activePlayerId
  match newActivePlayerIdOpt with
  | none => Except.error GameError.activePlayerIndexOutOfRange
  | some newActivePlayerId =>
    let updatedPlayers := mapWithIndex (advancePlayerUpdate nextPhase newPlayerIndex) state.players
    let newCombat :=
      if ¬ isCombatPhase nextPhase ∧ isCombatPhase currentPhase then
        { attackers := [], blockers := [], step := none : CombatState }
      else state.combat
    Except.ok
      { state with
          phase := nextPhase,
          turn := newTurn,
          currentPlayerIndex := newPlayerIndex,
          activePlayerId := newActivePlayerId,
          priorityPlayerId := newActivePlayerId,
          players := updatedPlayers,
          combat := newCombat,
          updatedAt := now }

/-- `passPriority` from phases.ts. -/
def passPriority (state : GameState) (now : Nat) : Except GameError GameState :=
  match state.players.findIdx? (fun p => p.id = state.priorityPlayerId) with
  | none => Except.ok state
  | some currentPriorityIndex =>
    let nextPriorityIndex := (currentPriorityIndex + 1) % state.players.length
    match state.players[nextPriorityIndex]? with
    | none => Except.error GameError.priorityPlayerIndexOutOfRange
    | some nextP =>
      if nextP.id = state.activePlayerId ∧ state.stack.length = 0 then
        advancePhase state now
      else
        Except.ok { state with priorityPlayerId := nextP.id, updatedAt := now }

/-- The `actionType` parameter of `canTakeAction`. -/
inductive ActionSpeed
  | sorcery | instant | land | ability
  deriving DecidableEq, Repr

/-- `canTakeAction` from phases.ts. -/
def canTakeAction (state : GameState) (playerId : String) (actionType : ActionSpeed) : Bool :=
  if state.priorityPlayerId ≠ playerId then false
  else
    match actionType with
    | ActionSpeed.sorcery | ActionSpeed.land =>
        state.activePlayerId = playerId && isMainPhase state.phase
          && state.stack.length = 0
    | ActionSpeed.instant | ActionSpeed.ability => true

/- ============================ combat.ts ============================ -/

/-- The validation loop of `declareAttackers`, threading the active player's
battlefield array (which is mutated in place by the taps) and the index used
to read `defendingPlayerIds[i]`.  An error thrown at a later index leaves the
taps of earlier iterations in place, which the returned battlefield reflects.
The JS falsy checks `!creatureId` / `!defenderId` also fire on `""`. -/
def daLoop (defendingPlayerIds : List String) :
    List String → Nat → List CardInPlay →
    List CardInPlay × Except GameError (List Attacker)
  | [], _, bf => (bf, Except.ok [])
  | creatureId :: rest, i, bf =>
    if creatureId = "" then (bf, Except.error (GameError.creatureIdUndefined i))
    else
      match defendingPlayerIds[i]? with
      | none => (bf, Except.error (GameError.noDefenderSpecified creatureId))
      | some defenderId =>
        if defenderId = "" then (bf, Except.error (GameError.noDefenderSpecified creatureId))
        else
          match bf.find? (fun c => c.instanceId = creatureId) with
          | none => (bf, Except.error (GameError.creatureNotFoundOnBattlefield creatureId))
          | some creature =>
            if ¬ canAttack creature then
              (bf, Except.error (GameError.creatureCannotAttack creature.template.name))
            else
              let bf' :=
                if ¬ hasVigilance creature then
                  updateFirst bf (fun c => c.instanceId = creatureId)
                    (fun c => { c with isTapped := true })
                else bf
              match daLoop defendingPlayerIds rest (i + 1) bf' with
              | (bfF, Except.ok attackers) =>
                  (bfF, Except.ok
                    ({ instanceId := creatureId, defendingPlayerId := defenderId,
                       blockedBy := [] } :: attackers))
              | (bfF, Except.error e) => (bfF, Except.error e)

/-- Replace the first player matching `pid`'s battlefield. -/
def setBattlefieldOf (players : List Player) (pid : String) (bf : List CardInPlay) : List Player :=
  updateFirst players (fun p => p.id = pid)
    (fun p => { p with zones := { p.zones with battlefield := bf } })

/-- `declareAttackers` from combat.ts, with the post-call value of the
caller's snapshot as first component (the taps mutate the active player's
battlefield in place; the returned state shares that array). -/
def declareAttackersM (state : GameState) (attackingCreatureIds defendingPlayerIds : List String)
    (now : Nat) : GameState × Except GameError GameState :=
  if state.phase ≠ Phase.combat_declare_attackers then
    (state, Except.error GameError.wrongPhaseDeclareAttackers)
  else
    match state.players.find? (fun p => p.id = state.activePlayerId) with
    | none => (state, Except.error GameError.activePlayerNotFound)
    | some activePlayer =>
      match daLoop defendingPlayerIds attackingCreatureIds 0 activePlayer.zones.battlefield with
      | (bf', r) =>
        let players' := setBattlefieldOf state.players state.activePlayerId bf'
        let oldAfter := { state with players := players' }
        match r with
        | Except.error e => (oldAfter, Except.error e)
        | Except.ok attackers =>
            (oldAfter, Except.ok
              { state with
                  players := players',
                  combat := { state.combat with
                                attackers := attackers,
                                step := some CombatStep.declare_blockers },
                  updatedAt := now })

/-- `declareAttackers` (returned value only). -/
def declareAttackers (state : GameState) (attackingCreatureIds defendingPlayerIds : List String)
    (now : Nat) : Except GameError GameState :=
  (declareAttackersM state attackingCreatureIds defendingPlayerIds now).2

/-- The validation loop of `declareBlockers`, threading the player list
(defending player's battlefield taps) and the attacker records (shared with
the caller's `combat.attackers`, whose `blockedBy` arrays are pushed to in
place). -/
def dbLoop (activePlayerId defendingPlayerId : String) :
    List Block → List Player → List Attacker →
    (List Player × List Attacker) × Except GameError (List Blocker)
  | [], players, attackers => ((players, attackers), Except.ok [])
  | block :: rest, players, attackers =>
    let defendingPlayer := players.find? (fun p => p.id ≠ activePlayerId)
    let blockerOpt : Option CardInPlay :=
      match defendingPlayer with
      | none => none
      | some dp => dp.zones.battlefield.find? (fun c => c.instanceId = block.blockerId)
    match blockerOpt with
    | none => ((players, attackers), Except.error (GameError.blockerNotFound block.blockerId))
    | some blocker =>
      match attackers.find? (fun a => a.instanceId = block.attackerId) with
      | none => ((players, attackers), Except.error (GameError.attackerNotFound block.attackerId))
      | some _ =>
        let allBattlefields := players.flatMap (fun p => p.zones.battlefield)
        match allBattlefields.find? (fun c => c.instanceId = block.attackerId) with
        | none =>
            ((players, attackers), Except.error (GameError.attackerCardNotFound block.attackerId))
        | some attackerCard =>
          if ¬ canBlock blocker attackerCard then
            ((players, attackers),
              Except.error (GameError.cannotBlock blocker.template.name attackerCard.template.name))
          else
            let players' := updateFirst players (fun p => p.id = defendingPlayerId)
              (fun p =>
                let bf := updateFirst p.zones.battlefield
                  (fun c => c.instanceId = block.blockerId)
                  (fun c => { c with isTapped := true })
                { p with zones := { p.zones with battlefield := bf } })
            let attackers' := updateFirst attackers (fun a => a.instanceId = block.attackerId)
              (fun a => { a with blockedBy := a.blockedBy ++ [block.blockerId] })
            match dbLoop activePlayerId defendingPlayerId rest players' attackers' with
            | (acc, Except.ok blockers) =>
                (acc, Except.ok
                  ({ instanceId := block.blockerId, blocking := block.attackerId,
                     damageOrder := none } :: blockers))
            | (acc, Except.error e) => (acc, Except.error e)

/-- `declareBlockers` from combat.ts, with the post-call value of the
caller's snapshot first: the old snapshot keeps its combat `step` and
`blockers`, but its `attackers` records' `blockedBy` arrays are mutated, and
the defending player's blockers are tapped in place. -/
def declareBlockersM (state : GameState) (blocks : List Block) (now : Nat) :
    GameState × Except GameError GameState :=
  if state.phase ≠ Phase.combat_declare_blockers then
    (state, Except.error GameError.wrongPhaseDeclareBlockers)
  else
    match state.players.find? (fun p => p.id ≠ state.activePlayerId) with
    | none => (state, Except.error GameError.defendingPlayerNotFound)
    | some defendingPlayer =>
      match dbLoop state.activePlayerId defendingPlayer.id blocks state.players
          state.combat.attackers with
      | ((playersF, attackersF), r) =>
        let oldAfter :=
          { state with players := playersF,
                       combat := { state.combat with attackers := attackersF } }
        match r with
        | Except.error e => (oldAfter, Except.error e)
        | Except.ok blockers =>
            (oldAfter, Except.ok
              { state with
                  players := playersF,
                  combat := { attackers := attackersF, blockers := blockers,
                              step := some CombatStep.damage },
                  updatedAt := now })

/-- `declareBlockers` (returned value only). -/
def declareBlockers (state : GameState) (blocks : List Block) (now : Nat) :
    Except GameError GameState :=
  (declareBlockersM state blocks now).2

/-- `combatCreatures.find(...)`: first card with this instance id across all
battlefields (the arrays are not restructured during the damage passes, so
searching the current player list is equivalent to the `flatMap` snapshot
taken at the start of each pass). -/
def findCard (players : List Player) (cid : String) : Option CardInPlay :=
  (players.flatMap (fun p => p.zones.battlefield)).find? (fun c => c.instanceId = cid)

/-- In-place mutation of the card found by `findCard`: rewrite the first
card with this instance id across all battlefields. -/
def updateCardInPlayers : List Player → String → (CardInPlay → CardInPlay) → List Player
  | [], _, _ => []
  | p :: ps, cid, f =>
    if p.zones.battlefield.any (fun c => c.instanceId = cid) then
      let bf := updateFirst p.zones.battlefield (fun c => c.instanceId = cid) f
      { p with zones := { p.zones with battlefield := bf } } :: ps
    else p :: updateCardInPlayers ps cid f

/-- In-place `player.life += delta` on the first player with this id. -/
def updatePlayerLife (players : List Player) (pid : String) (delta : Int) : List Player :=
  updateFirst players (fun p => p.id = pid) (fun p => { p with life := p.life + delta })

/-- Combat damage marking: `damageMarked += amount`, then deathtouch
overwrites with the creature's (unchanged) toughness. -/
def markDamage (amount : Nat) (deathtouch : Bool) (c : CardInPlay) : CardInPlay :=
  let c1 := { c with damageMarked := c.damageMarked + amount }
  if deathtouch then { c1 with damageMarked := getToughness c1 } else c1

/-- One iteration of the attacker loop in `resolveFirstStrikeDamage`
(combat.ts).  The `if (blockerCard)` guard is absorbed into
`updateCardInPlayers`, which is a no-op for an absent instance id. -/
def fsAttackerStep (players : List Player) (atk : Attacker) : List Player :=
  match findCard players atk.instanceId with
  | none => players
  | some attackerCard =>
    if ¬ hasFirstStrike attackerCard then players
    else
      let power := getPower attackerCard
      if atk.blockedBy.length > 0 then
        atk.blockedBy.foldl
          (fun pls blockerId =>
            updateCardInPlayers pls blockerId (markDamage power (hasDeathtouch attackerCard)))
          players
      else
        match players.find? (fun p => p.id = atk.defendingPlayerId) with
        | none => players
        | some _ =>
          let players1 := updatePlayerLife players atk.defendingPlayerId (-(power : Int))
          if hasLifelink attackerCard then
            match players1.find? (fun p => p.id = attackerCard.controllerId) with
            | none => players1
            | some _ => updatePlayerLife players1 attackerCard.controllerId (power : Int)
          else players1

/-- One iteration of the blocker loop in `resolveFirstStrikeDamage`
(combat.ts); note there is no lifelink handling in this loop. -/
def fsBlockerStep (players : List Player) (blk : Blocker) : List Player :=
  match findCard players blk.instanceId with
  | none => players
  | some blockerCard =>
    if ¬ hasFirstStrike blockerCard then players
    else
      match findCard players blk.blocking with
      | none => players
      | some _ =>
        let power := getPower blockerCard
        updateCardInPlayers players blk.blocking (markDamage power (hasDeathtouch blockerCard))

/-- `resolveFirstStrikeDamage` from combat.ts. -/
def resolveFirstStrikeDamage (state : GameState) : GameState :=
  let players1 := state.combat.attackers.foldl fsAttackerStep state.players
  let players2 := state.combat.blockers.foldl fsBlockerStep players1
  { state with players := players2 }

/-- One iteration of the attacker loop in `resolveRegularDamage` (combat.ts).
For a blocked attacker, damage is assigned to blockers in order up to each
blocker's toughness; Trample carries the remainder to the defending player;
Lifelink then grants the controller the attacker's full `power` (not the
damage actually assigned). -/
def regularAttackerStep (players : List Player) (atk : Attacker) : List Player :=
  match findCard players atk.instanceId with
  | none => players
  | some attackerCard =>
    if hasFirstStrike attackerCard && !hasDoubleStrike attackerCard then players
    else
      let power := getPower attackerCard
      if atk.blockedBy.length > 0 then
        let acc := atk.blockedBy.foldl
          (fun acc blockerId =>
            match findCard acc.1 blockerId with
            | none => acc
            | some blockerCard =>
              let damageToBlocker := min (getToughness blockerCard) acc.2
              let pls := updateCardInPlayers acc.1 blockerId
                (markDamage damageToBlocker (hasDeathtouch attackerCard))
              (pls, acc.2 - damageToBlocker))
          (players, power)
        let players2 :=
          if hasTrample attackerCard ∧ acc.2 > 0 then
            match acc.1.find? (fun p => p.id = atk.defendingPlayerId) with
            | none => acc.1
            | some _ => updatePlayerLife acc.1 atk.defendingPlayerId (-(acc.2 : Int))
          else acc.1
        if hasLifelink attackerCard then
          match players2.find? (fun p => p.id = attackerCard.controllerId) with
          | none => players2
          | some _ => updatePlayerLife players2 attackerCard.controllerId (power : Int)
        else players2
      else
        match players.find? (fun p => p.id = atk.defendingPlayerId) with
        | none => players
        | some _ =>
          let players1 := updatePlayerLife players atk.defendingPlayerId (-(power : Int))
          if hasLifelink attackerCard then
            match players1.find? (fun p => p.id = attackerCard.controllerId) with
            | none => players1
            | some _ => updatePlayerLife players1 attackerCard.controllerId (power : Int)
          else players1

/-- One iteration of the blocker loop in `resolveRegularDamage` (combat.ts);
this loop does handle lifelink. -/
def regularBlockerStep (players : List Player) (blk : Blocker) : List Player :=
  match findCard players blk.instanceId with
  | none => players
  | some blockerCard =>
    if hasFirstStrike blockerCard && !hasDoubleStrike blockerCard then players
    else
      match findCard players blk.blocking with
      | none => players
      | some _ =>
        let power := getPower blockerCard
        let players1 :=
          updateCardInPlayers players blk.blocking (markDamage power (hasDeathtouch blockerCard))
        if hasLifelink blockerCard then
          match players1.find? (fun p => p.id = blockerCard.controllerId) with
          | none => players1
          | some _ => updatePlayerLife players1 blockerCard.controllerId (power : Int)
        else players1

/-- `resolveRegularDamage` from combat.ts. -/
def resolveRegularDamage (state : GameState) : GameState :=
  let players1 := state.combat.attackers.foldl regularAttackerStep state.players
  let players2 := state.combat.blockers.foldl regularBlockerStep players1
  { state with players := players2 }

/-- The per-player body of `cleanupDeadCreatures` (combat.ts). -/
def cleanupPlayer (player : Player) : Player :=
  let battlefield := player.zones.battlefield
  let deadCreatures := battlefield.filter (fun card => shouldDie card)
  let aliveCreatures := battlefield.filter (fun card => !shouldDie card)
  let graveyard := player.zones.graveyard
    ++ deadCreatures.map (fun c => { c with zone := Zone.graveyard, damageMarked := 0 })
  { player with zones :=
      { player.zones with battlefield := aliveCreatures, graveyard := graveyard } }

/-- `cleanupDeadCreatures` from combat.ts. -/
def cleanupDeadCreatures (state : GameState) : GameState :=
  { state with players := state.players.map cleanupPlayer }

/-- `resolveCombatDamage` from combat.ts. -/
def resolveCombatDamage (state : GameState) (now : Nat) : Except GameError GameState :=
  if state.phase ≠ Phase.combat_damage then
    Except.error GameError.wrongPhaseResolveDamage
  else
    let s1 := resolveFirstStrikeDamage state
    let s2 := resolveRegularDamage s1
    let s3 := cleanupDeadCreatures s2
    Except.ok
      { s3 with
          combat := { s3.combat with step := some CombatStep.endStep },
          updatedAt := now }

/- ============================ engine.ts ============================ -/

/-- The guarded swap in `shuffleArray`: both reads must be defined
(`j` out of range leaves the array unchanged). -/
def swapIfDefined {α : Type} (arr : List α) (i j : Nat) : List α :=
  match arr[i]?, arr[j]? with
  | some a, some b => (arr.set i b).set j a
  | _, _ => arr

/-- The downward Fisher-Yates loop of `shuffleArray`: body runs for
`i = len-1, ..., 1`, with `j = randJ i` modelling
`Math.floor(Math.random() * (i + 1))`. -/
def fyLoop {α : Type} (randJ : Nat → Nat) : List α → Nat → List α
  | arr, 0 => arr
  | arr, i + 1 => fyLoop randJ (swapIfDefined arr (i + 1) (randJ (i + 1))) i

/-- `shuffleArray` from engine.ts. -/
def shuffleArray {α : Type} (array : List α) (randJ : Nat → Nat) : List α :=
  fyLoop randJ array (array.length - 1)

/-- The per-player construction in `createGame`: shuffle the deck,
materialise `CardInPlay` instances into the library, splice off the first
seven as the opening hand. -/
def createGamePlayer (randJ : Nat → Nat) (index : Nat) (p : PlayerSpec) : Player :=
  let shuffledDeck := shuffleArray p.deck randJ
  let library := mapWithIndex
    (fun cardIndex template =>
      { instanceId := p.id ++ "-card-" ++ natToString cardIndex,
        template := template,
        zone := Zone.library,
        ownerId := p.id,
        controllerId := p.id,
        isTapped := false,
        counters := { plusOnePlusOne := 0, minusOneMinusOne := 0 },
        damageMarked := 0,
        summoningSickness := false,
        attachedTo := none : CardInPlay })
    shuffledDeck
  let hand := (library.take 7).map (fun card => { card with zone := Zone.hand })
  { id := p.id,
    name := p.name,
    life := 20,
    manaPool := createEmptyManaPool,
    maxHandSize := 7,
    hasPlayedLand := false,
    hasPriority := index = 0,
    zones :=
      { library := library.drop 7,
        hand := hand,
        battlefield := [],
        graveyard := [],
        exile := [] } }

/-- `createGame` from engine.ts.  `Date.now()` is the `now` parameter (used
both for the game id and the timestamps); `Math.random()` draws are `randJ`. -/
def createGame (players : List PlayerSpec) (randJ : Nat → Nat) (now : Nat) :
    Except GameError GameState :=
  if players.length < 2 ∨ players.length > 4 then
    Except.error GameError.invalidPlayerCount
  else
    let gamePlayers := mapWithIndex (createGamePlayer randJ) players
    match gamePlayers.head? with
    | none => Except.error GameError.noPlayersInGame
    | some firstPlayer =>
      Except.ok
        { id := "game-" ++ natToString now,
          players := gamePlayers,
          currentPlayerIndex := 0,
          activePlayerId := firstPlayer.id,
          priorityPlayerId := firstPlayer.id,
          phase := Phase.untap,
          turn := 1,
          stack := [],
          combat := { attackers := [], blockers := [], step := none },
          status := GameStatus.in_progress,
          winner := none,
          createdAt := now,
          updatedAt := now }

/-- `playLand` from engine.ts.  All validations precede the first mutation;
on success the card is spliced out of the hand and pushed onto the
battlefield of the (shared, mutated-in-place) player object, and the return
value is `{...state, updatedAt}`. -/
def playLandM (state : GameState) (playerId instanceId : String) (now : Nat) :
    GameState × Except GameError GameState :=
  if ¬ canTakeAction state playerId ActionSpeed.land then
    (state, Except.error GameError.cannotPlayLandNow)
  else
    match state.players.find? (fun p => p.id = playerId) with
    | none => (state, Except.error GameError.playerNotFound)
    | some player =>
      if player.hasPlayedLand then (state, Except.error GameError.alreadyPlayedLand)
      else
        match player.zones.hand.find? (fun c => c.instanceId = instanceId) with
        | none => (state, Except.error GameError.cardNotFoundInHand)
        | some card =>
          if card.template.class' ≠ CardClass.Land then
            (state, Except.error GameError.cardIsNotALand)
          else
            let players' := updateFirst state.players (fun p => p.id = playerId)
              (fun p =>
                let hand' := removeFirst p.zones.hand (fun c => c.instanceId = instanceId)
                let bf' := p.zones.battlefield ++ [{ card with zone := Zone.battlefield }]
                { p with
                    hasPlayedLand := true,
                    zones := { p.zones with hand := hand', battlefield := bf' } })
            ({ state with players := players' },
             Except.ok { state with players := players', updatedAt := now })

/-- `playLand` (returned value only). -/
def playLand (state : GameState) (playerId instanceId : String) (now : Nat) :
    Except GameError GameState :=
  (playLandM state playerId instanceId now).2

/-- `castSpell` from engine.ts.  Permanents (Creature/Artifact/Enchantment)
go to the battlefield (creatures with summoning sickness), everything else
to the graveyard; the mana pool is replaced by `payManaCost`'s result.  All
validations precede the first mutation. -/
def castSpellM (state : GameState) (playerId instanceId : String)
    (_targets : Option (List String)) (now : Nat) :
    GameState × Except GameError GameState :=
  match state.players.find? (fun p => p.id = playerId) with
  | none => (state, Except.error GameError.playerNotFound)
  | some player =>
    match player.zones.hand.find? (fun c => c.instanceId = instanceId) with
    | none => (state, Except.error GameError.cardNotFoundInHand)
    | some card =>
      let speed :=
        if card.template.class' = CardClass.Instant then ActionSpeed.instant
        else ActionSpeed.sorcery
      if ¬ canTakeAction state playerId speed then
        (state, Except.error GameError.cannotCastAtThisTime)
      else
        let manaCost := parseManaString card.template.manaCost
        match payManaCost player.manaPool manaCost with
        | none => (state, Except.error GameError.notEnoughMana)
        | some newManaPool =>
          let players' := updateFirst state.players (fun p => p.id = playerId)
            (fun p =>
              let hand' := removeFirst p.zones.hand (fun c => c.instanceId = instanceId)
              if card.template.class' = CardClass.Creature
                  ∨ card.template.class' = CardClass.Artifact
                  ∨ card.template.class' = CardClass.Enchantment then
                let card' :=
                  if card.template.class' = CardClass.Creature then
                    { card with zone := Zone.battlefield, summoningSickness := true }
                  else { card with zone := Zone.battlefield }
                let bf' := p.zones.battlefield ++ [card']
                let zones' := { p.zones with hand := hand', battlefield := bf' }
                { p with manaPool := newManaPool, zones := zones' }
              else
                let gy' := p.zones.graveyard ++ [{ card with zone := Zone.graveyard }]
                let zones' := { p.zones with hand := hand', graveyard := gy' }
                { p with manaPool := newManaPool, zones := zones' })
          ({ state with players := players' },
           Except.ok { state with players := players', updatedAt := now })

/-- `castSpell` (returned value only). -/
def castSpell (state : GameState) (playerId instanceId : String)
    (targets : Option (List String)) (now : Nat) : Except GameError GameState :=
  (castSpellM state playerId instanceId targets now).2

/-- `handleDeclareAttackers` from engine.ts: every attacker targets the next
player in seat order. -/
def handleDeclareAttackers (state : GameState) (playerId : String)
    (attackerIds : List String) (now : Nat) : Except GameError GameState :=
  if state.activePlayerId ≠ playerId then Except.error GameError.notYourTurn
  else if state.phase ≠ Phase.combat_declare_attackers then
    Except.error GameError.notDeclareAttackersPhase
  else
    let defendingPlayerIndex := (state.currentPlayerIndex + 1) % state.players.length
    match state.players[defendingPlayerIndex]? with
    | none => Except.error GameError.defendingPlayerNotFoundHandle
    | some defendingPlayer =>
      let defenderIds := attackerIds.map (fun _ => defendingPlayer.id)
      declareAttackers state attackerIds defenderIds now

/-- `handleDeclareBlockers` from engine.ts. -/
def handleDeclareBlockers (state : GameState) (playerId : String)
    (blocks : List Block) (now : Nat) : Except GameError GameState :=
  let defendingPlayer := state.players.find? (fun p => p.id ≠ state.activePlayerId)
  if (defendingPlayer.map (fun p => p.id)) ≠ some playerId then
    Except.error GameError.notDefendingPlayer
  else declareBlockers state blocks now

/-- `handleConcede` from engine.ts. -/
def handleConcede (state : GameState) (playerId : String) (now : Nat) :
    Except GameError GameState :=
  let remainingPlayers := state.players.filter (fun p => p.id ≠ playerId)
  if remainingPlayers.length = 1 then
    match remainingPlayers.head? with
    | none => Except.error GameError.winnerNotFoundConcede
    | some winner =>
      Except.ok { state with status := GameStatus.completed, winner := some winner.id,
                             updatedAt := now }
  else
    Except.ok { state with players := remainingPlayers, updatedAt := now }

/-- `processAction` from engine.ts.  `ACTIVATE_ABILITY` and `MULLIGAN` have
no case in the switch and fall through to the default `Unknown action type`
error. -/
def processAction (state : GameState) (playerId : String) (action : GameAction)
    (now : Nat) : Except GameError GameState :=
  if state.status = GameStatus.completed then Except.error GameError.gameAlreadyCompleted
  else
    match action with
    | GameAction.PASS_PRIORITY => passPriority state now
    | GameAction.PASS_PHASE =>
      if state.priorityPlayerId ≠ playerId then Except.error GameError.noPriority
      else advancePhase state now
    | GameAction.PLAY_LAND instanceId => playLand state playerId instanceId now
    | GameAction.CAST_SPELL instanceId targets => castSpell state playerId instanceId targets now
    | GameAction.DECLARE_ATTACKERS attackers =>
        handleDeclareAttackers state playerId attackers now
    | GameAction.DECLARE_BLOCKERS blocks => handleDeclareBlockers state playerId blocks now
    | GameAction.CONCEDE => handleConcede state playerId now
    | GameAction.ACTIVATE_ABILITY _ _ _ => Except.error GameError.unknownActionType
    | GameAction.MULLIGAN => Except.error GameError.unknownActionType

/-- `checkGameEnd` from engine.ts. -/
def checkGameEnd (state : GameState) (now : Nat) : Except GameError GameState :=
  let alivePlayers := state.players.filter (fun p => p.life > 0)
  if alivePlayers.length = 1 then
    match alivePlayers.head? with
    | none => Except.error GameError.winnerNotFound
    | some winner =>
      Except.ok { state with status := GameStatus.completed, winner := some winner.id,
                             updatedAt := now }
  else if alivePlayers.length = 0 then
    Except.ok { state with status := GameStatus.completed, winner := none, updatedAt := now }
  else
    Except.ok state

/- ==================== concrete test fixtures ==================== -/

/-- A keyword ability with the given code. -/
def abilityOf (code : String) : CardAbility :=
  { code := code, kind := AbilityKind.Keyword }

/-- A basic land template. -/
def tmplForest : CardTemplate :=
  { id := 1, name := "Forest", class' := CardClass.Land, manaCost := "",
    power := none, toughness := none, abilities := [] }

/-- A vanilla 2/2 creature template. -/
def tmplBear : CardTemplate :=
  { id := 2, name := "Bear", class' := CardClass.Creature, manaCost := "1G",
    power := some 2, toughness := some 2, abilities := [] }

/-- A creature template with given power/abilities (toughness 7). -/
def tmplBig (bp : Nat) (abs : List CardAbility) : CardTemplate :=
  { id := 10, name := "Big", class' := CardClass.Creature, manaCost := "3WW",
    power := some bp, toughness := some 7, abilities := abs }

/-- A fresh untapped card instance. -/
def mkCard (iid : String) (tmpl : CardTemplate) (owner : String) (z : Zone) : CardInPlay :=
  { instanceId := iid, template := tmpl, zone := z, ownerId := owner, controllerId := owner,
    isTapped := false, counters := { plusOnePlusOne := 0, minusOneMinusOne := 0 },
    damageMarked := 0, summoningSickness := false, attachedTo := none }

/-- Empty zone collections. -/
def emptyZones : Zones :=
  { library := [], hand := [], battlefield := [], graveyard := [], exile := [] }

/-- A 20-life player with the given zones and an empty mana pool. -/
def mkPlayer (pid : String) (zs : Zones) : Player :=
  { id := pid, name := pid, life := 20, manaPool := createEmptyManaPool, maxHandSize := 7,
    hasPlayedLand := false, hasPriority := false, zones := zs }

/-- A two-or-more-player in-progress game state skeleton. -/
def baseState (players : List Player) (phase : Phase) (activeId priorityId : String) : GameState :=
  { id := "g", players := players, currentPlayerIndex := 0, activePlayerId := activeId,
    priorityPlayerId := priorityId, phase := phase, turn := 1, stack := [],
    combat := { attackers := [], blockers := [], step := none },
    status := GameStatus.in_progress, winner := none, createdAt := 0, updatedAt := 0 }

/-- The life total of the first player with this id. -/
def lifeOf (s : GameState) (pid : String) : Option Int :=
  (s.players.find? (fun p => p.id = pid)).map (fun p => p.life)

/-- Fixture for the playLand claims: `p1` holds priority in `main1` with a
land in hand. -/
def sLand : GameState :=
  baseState
    [mkPlayer "p1" { emptyZones with hand := [mkCard "land1" tmplForest "p1" Zone.hand] },
     mkPlayer "p2" emptyZones]
    Phase.main1 "p1" "p1"

/-- Fixture for the declareAttackers claims: `p1` has an attackable bear. -/
def sAttack : GameState :=
  baseState
    [mkPlayer "p1" { emptyZones with battlefield := [mkCard "bearA" tmplBear "p1" Zone.battlefield] },
     mkPlayer "p2" emptyZones]
    Phase.combat_declare_attackers "p1" "p1"

/-- Combat-damage fixture: a `bp`/7 attacker with the given abilities, blocked
by a vanilla 2/2. -/
def cLifelink (abs : List CardAbility) (bp : Nat) : GameState :=
  let base := baseState
    [mkPlayer "p1" { emptyZones with battlefield := [mkCard "atk" (tmplBig bp abs) "p1" Zone.battlefield] },
     mkPlayer "p2" { emptyZones with battlefield := [mkCard "blk" tmplBear "p2" Zone.battlefield] }]
    Phase.combat_damage "p1" "p1"
  { base with combat :=
      { attackers := [{ instanceId := "atk", defendingPlayerId := "p2", blockedBy := ["blk"] }],
        blockers := [{ instanceId := "blk", blocking := "atk", damageOrder := none }],
        step := some CombatStep.damage } }

/-- Fixture for the end-phase mana-empty claims: the non-active player `p2`
has mana in pool while `p1` is about to move from `main2` to `end`. -/
def sMain2 : GameState :=
  baseState
    [mkPlayer "p1" emptyZones,
     { mkPlayer "p2" emptyZones with manaPool := { createEmptyManaPool with R := 3 } }]
    Phase.main2 "p1" "p1"

/-- A present-but-zero base power with two +1/+1 counters. -/
def zeroBaseCard : CardInPlay :=
  { mkCard "zb" { id := 3, name := "Wall", class' := CardClass.Creature, manaCost := "1",
                  power := some 0, toughness := some 4, abilities := [] } "p1" Zone.battlefield
    with counters := { plusOnePlusOne := 2, minusOneMinusOne := 0 } }

/- ==================== zone-consistency invariant ==================== -/

/-- All cards of a player's five zone collections, in zone order. -/
def allZoneCards (z : Zones) : List CardInPlay :=
  z.library ++ z.hand ++ z.battlefield ++ z.graveyard ++ z.exile

/-- Zone-consistency of one player's zones: every card in a collection
carries that collection's zone tag, and no instance id occurs twice across
the five collections (each instance lives in exactly one zone). -/
def zonesOK (z : Zones) : Prop :=
  (∀ c ∈ z.library, c.zone = Zone.library) ∧
  (∀ c ∈ z.hand, c.zone = Zone.hand) ∧
  (∀ c ∈ z.battlefield, c.zone = Zone.battlefield) ∧
  (∀ c ∈ z.graveyard, c.zone = Zone.graveyard) ∧
  (∀ c ∈ z.exile, c.zone = Zone.exile) ∧
  ((allZoneCards z).map (fun c => c.instanceId)).Nodup

/-- Zone-consistency of a whole game state. -/
def zonesConsistent (s : GameState) : Prop :=
  ∀ p ∈ s.players, zonesOK p.zones

instance (z : Zones) : Decidable (zonesOK z) := by
  unfold zonesOK; infer_instance

instance (s : GameState) : Decidable (zonesConsistent s) := by
  unfold zonesConsistent; infer_instance

/-- The (instance id, zone) skeleton of a card; damage and tap updates
preserve it. -/
def tagOf (c : CardInPlay) : String × Zone :=
  (c.instanceId, c.zone)

/-- The instance ids across a player's five zone collections. -/
def zoneIds (z : Zones) : List String :=
  (allZoneCards z).map (fun c => c.instanceId)

/-- The per-collection `tagOf` skeleton of a player's zones. -/
def zTags (z : Zones) :
    List (String × Zone) × List (String × Zone) × List (String × Zone)
      × List (String × Zone) × List (String × Zone) :=
  (z.library.map tagOf, z.hand.map tagOf, z.battlefield.map tagOf,
   z.graveyard.map tagOf, z.exile.map tagOf)

/- ==================== further fixtures ==================== -/

/-- Castable-creature fixture: `p1` holds priority in `main1` with a bear in
hand and `GG` in pool. -/
def sCast : GameState :=
  baseState
    [{ mkPlayer "p1" { emptyZones with hand := [mkCard "bear1" tmplBear "p1" Zone.hand] }
        with manaPool := { createEmptyManaPool with G := 2 } },
     mkPlayer "p2" emptyZones]
    Phase.main1 "p1" "p1"

/-- End-phase fixture: `p1` active in phase `end`, `p2` (the next seat) has a
tapped, summoning-sick bear and a played-land flag set. -/
def sEnd : GameState :=
  baseState
    [mkPlayer "p1" emptyZones,
     { mkPlayer "p2"
         { emptyZones with battlefield :=
             [{ mkCard "bearB" tmplBear "p2" Zone.battlefield
                 with isTapped := true, summoningSickness := true }] }
        with hasPlayedLand := true }]
    Phase.endPhase "p1" "p1"

/-- Three players with life 0 / 15 / 0. -/
def sWin : GameState :=
  baseState
    [{ mkPlayer "p1" emptyZones with life := 0 },
     { mkPlayer "p2" emptyZones with life := 15 },
     { mkPlayer "p3" emptyZones with life := 0 }]
    Phase.main1 "p1" "p1"

/-- Two players, both at 0 life. -/
def sDraw : GameState :=
  baseState
    [{ mkPlayer "p1" emptyZones with life := 0 },
     { mkPlayer "p2" emptyZones with life := 0 }]
    Phase.main1 "p1" "p1"

/-- Player specs for the `createGame` run comparison. -/
def ps4 : List PlayerSpec :=
  [{ id := "p1", name := "P1", deck := [tmplForest, tmplBear] },
   { id := "p2", name := "P2", deck := [tmplForest, tmplBear] }]

/-- The state returned by the successful `playLand` on `sLand`. -/
def sLandAfter : GameState :=
  ((playLandM sLand "p1" "land1" 9).2).toOption.getD sLand

/-- The state returned by the successful `castSpell` on `sCast`. -/
def sCastAfter : GameState :=
  ((castSpellM sCast "p1" "bear1" none 9).2).toOption.getD sCast

/-- The state returned by `resolveCombatDamage` on the blocked lifelink
fixture with power 7. -/
def c6res : GameState :=
  (resolveCombatDamage (cLifelink [abilityOf "LIFELINK"] 7) 0).toOption.getD
    (cLifelink [abilityOf "LIFELINK"] 7)

/-- The state returned by `advancePhase` on `sMain2`. -/
def sMain2After : GameState :=
  (advancePhase sMain2 0).toOption.getD sMain2

/-- The state produced by `createGame` on the two-player fixture with the
all-zeros draw stream. -/
def gCreated : GameState :=
  (createGame ps4 (fun _ => 0) 5).toOption.getD sLand

/- ==================== helper lemmas ==================== -/

theorem length_mapWithIndexFrom {α β : Type} (f : Nat → α → β) (n : Nat) (l : List α) :
    (mapWithIndexFrom f n l).length = l.length := by
  induction l generalizing n with
  | nil => rfl
  | cons x xs ih => simp [mapWithIndexFrom, ih]

theorem getElem?_mapWithIndexFrom {α β : Type} (f : Nat → α → β) (n : Nat) (l : List α)
    (i : Nat) : (mapWithIndexFrom f n l)[i]? = (l[i]?).map (f (n + i)) := by
  induction l generalizing n i with
  | nil => simp [mapWithIndexFrom]
  | cons x xs ih =>
    cases i with
    | zero => simp [mapWithIndexFrom]
    | succ j =>
      simp only [mapWithIndexFrom, List.getElem?_cons_succ]
      rw [ih (n + 1) j]
      have h2 : n + 1 + j = n + (j + 1) := by omega
      rw [h2]

theorem mem_mapWithIndexFrom {α β : Type} {f : Nat → α → β} {n : Nat} {l : List α} {b : β}
    (h : b ∈ mapWithIndexFrom f n l) : ∃ i a, a ∈ l ∧ b = f i a := by
  induction l generalizing n with
  | nil => simp [mapWithIndexFrom] at h
  | cons x xs ih =>
    simp only [mapWithIndexFrom, List.mem_cons] at h
    rcases h with h | h
    · exact ⟨n, x, List.mem_cons_self x xs, h⟩
    · rcases ih h with ⟨i, a, ha, hb⟩
      exact ⟨i, a, List.mem_cons_of_mem x ha, hb⟩

/-- Either `playLand` throws before any mutation, or it succeeds and the
received snapshot ends up sharing the mutated `players` with the returned
state, differing from it only in `updatedAt`. -/
theorem playLandM_cases (s : GameState) (pid iid : String) (now : Nat) :
    (∃ e, playLandM s pid iid now = (s, Except.error e)) ∨
    (∃ players', playLandM s pid iid now =
      ({ s with players := players' },
       Except.ok { s with players := players', updatedAt := now })) := by
  unfold playLandM
  split
  · exact Or.inl ⟨_, rfl⟩
  · split
    · exact Or.inl ⟨_, rfl⟩
    · split
      · exact Or.inl ⟨_, rfl⟩
      · split
        · exact Or.inl ⟨_, rfl⟩
        · split
          · exact Or.inl ⟨_, rfl⟩
          · exact Or.inr ⟨_, rfl⟩

/-- The analogue of `playLandM_cases` for `castSpell`. -/
theorem castSpellM_cases (s : GameState) (pid iid : String)
    (targets : Option (List String)) (now : Nat) :
    (∃ e, castSpellM s pid iid targets now = (s, Except.error e)) ∨
    (∃ players', castSpellM s pid iid targets now =
      ({ s with players := players' },
       Except.ok { s with players := players', updatedAt := now })) := by
  unfold castSpellM
  dsimp only
  repeat' split
  all_goals
    first
      | exact Or.inl ⟨_, rfl⟩
      | exact Or.inr ⟨_, rfl⟩

/- ==================== claim theorems ==================== -/

/-- C1 (counterexample): a successful `playLand` does not leave the received
snapshot unchanged — the snapshot observed after the call differs from the
one passed in (the land has moved out of the hand on the old snapshot too). -/
theorem playLand_mutates_received_snapshot :
    (playLandM sLand "p1" "land1" 9).1 ≠ sLand ∧
    ((playLandM sLand "p1" "land1" 9).2).toOption.isSome = true := by
  decide

/-- C1 (amended): `playLand` and `castSpell` return a newly produced
top-level `GameState` record, but mutate the received snapshot's nested
player data in place: after a successful call, the received snapshot equals
the returned state except for `updatedAt` (in particular its `players` —
zones, card flags, mana pools — are the returned state's `players`, not the
original ones). -/
theorem playLand_castSpell_share_players_with_snapshot :
    ∀ (s : GameState) (pid iid : String) (targets : Option (List String)) (now : Nat)
      (res : GameState),
      ((playLandM s pid iid now).2 = Except.ok res →
        (playLandM s pid iid now).1 = { res with updatedAt := s.updatedAt }) ∧
      ((castSpellM s pid iid targets now).2 = Except.ok res →
        (castSpellM s pid iid targets now).1 = { res with updatedAt := s.updatedAt }) := by
  intro s pid iid targets now res
  constructor
  · intro h
    rcases playLandM_cases s pid iid now with ⟨e, he⟩ | ⟨players', hp⟩
    · rw [he] at h; cases h
    · rw [hp] at h ⊢
      cases h
      rfl
  · intro h
    rcases castSpellM_cases s pid iid targets now with ⟨e, he⟩ | ⟨players', hp⟩
    · rw [he] at h; cases h
    · rw [hp] at h ⊢
      cases h
      rfl

/-- C1 (witness): the shared-players relationship evaluated on the concrete
successful `playLand` and `castSpell` fixtures. -/
theorem playLand_castSpell_share_players_witness :
    (playLandM sLand "p1" "land1" 9).1 = { sLandAfter with updatedAt := sLand.updatedAt } ∧
    (castSpellM sCast "p1" "bear1" none 9).1 = { sCastAfter with updatedAt := sCast.updatedAt } :=
  ⟨(playLand_castSpell_share_players_with_snapshot sLand "p1" "land1" none 9 sLandAfter).1
      (by decide),
   (playLand_castSpell_share_players_with_snapshot sCast "p1" "bear1" none 9 sCastAfter).2
      (by decide)⟩

/-- C2 (counterexample): `declareAttackers` with a valid first attacker and
an unknown second one throws, yet the received snapshot is left partially
mutated — the first creature stays tapped on it. -/
theorem declareAttackers_partial_mutation_on_error :
    (declareAttackersM sAttack ["bearA", "nope"] ["p2", "p2"] 0).1 ≠ sAttack ∧
    ((declareAttackersM sAttack ["bearA", "nope"] ["p2", "p2"] 0).2).toOption = none := by
  decide

/-- C2 (amended): `playLand` and `castSpell` perform all validation before
any mutation, so when they fail the received snapshot is exactly as it was;
`declareAttackers`/`declareBlockers`, by contrast, tap and record as they
validate, so a later failure leaves earlier mutations behind (see the
counterexample). -/
theorem playLand_castSpell_atomic_on_error :
    ∀ (s : GameState) (pid iid : String) (targets : Option (List String)) (now : Nat)
      (e : GameError),
      ((playLandM s pid iid now).2 = Except.error e → (playLandM s pid iid now).1 = s) ∧
      ((castSpellM s pid iid targets now).2 = Except.error e →
        (castSpellM s pid iid targets now).1 = s) := by
  intro s pid iid targets now e
  constructor
  · intro h
    rcases playLandM_cases s pid iid now with ⟨e', he⟩ | ⟨players', hp⟩
    · rw [he]
    · rw [hp] at h; cases h
  · intro h
    rcases castSpellM_cases s pid iid targets now with ⟨e', he⟩ | ⟨players', hp⟩
    · rw [he]
    · rw [hp] at h; cases h

/-- C2 (witness): the atomicity of `playLand`/`castSpell` on concrete failing
inputs (a card id that is not in hand). -/
theorem playLand_castSpell_atomic_on_error_witness :
    (playLandM sLand "p1" "missing" 9).1 = sLand ∧
    (castSpellM sCast "p1" "missing" none 9).1 = sCast :=
  ⟨(playLand_castSpell_atomic_on_error sLand "p1" "missing" none 9
      GameError.cardNotFoundInHand).1 (by decide),
   (playLand_castSpell_atomic_on_error sCast "p1" "missing" none 9
      GameError.cardNotFoundInHand).2 (by decide)⟩

/-- C3 (code bug): `parseManaString "12R"` loses the red pip — the stale
`nextChar` look-ahead swallows the rest of the string after a multi-digit
run, so the claimed round-trip `generic 12 + one red pip` fails; the
formatted result `"12"` re-parses without the pip. -/
theorem parseManaString_drops_letters_after_multidigit_run :
    parseManaString "12R" = { W := 0, U := 0, B := 0, R := 0, G := 0, C := 0, generic := 12 }
    ∧ formatManaCost (parseManaString "12R") = "12"
    ∧ parseManaString "1R" = { W := 0, U := 0, B := 0, R := 1, G := 0, C := 0, generic := 1 } := by
  refine ⟨by decide, by decide, by decide⟩

/-- C4 (counterexample): two `createGame` runs on identical player lists and
decks are not identical when the ambient `Math.random()` draws differ — the
shuffled libraries, hence the dealt hands, differ. -/
theorem createGame_runs_differ_with_ambient_randomness :
    createGame ps4 (fun _ => 0) 5 ≠ createGame ps4 (fun i => i) 5 := by
  decide

/-- C4 (amended): the engine is deterministic only once the ambient
`Math.random()` draw sequence and `Date` clock readings are counted among
the explicit inputs: with those fixed, `createGame` and every transition is
a pure function — equal `(players, draws, clock)` resp. `(state, input,
clock)` always yield equal outputs.  The random source is the global
`Math.random`, not an injectable parameter, so runs agreeing only on players
and decks may differ (see the counterexample). -/
theorem engine_deterministic_given_explicit_rand_and_clock :
    ∀ (ps : List PlayerSpec) (r₁ r₂ : Nat → Nat) (t₁ t₂ : Nat) (s : GameState)
      (pid : String) (a : GameAction),
      r₁ = r₂ → t₁ = t₂ →
      createGame ps r₁ t₁ = createGame ps r₂ t₂ ∧
      processAction s pid a t₁ = processAction s pid a t₂ ∧
      advancePhase s t₁ = advancePhase s t₂ ∧
      resolveCombatDamage s t₁ = resolveCombatDamage s t₂ := by
  intro ps r₁ r₂ t₁ t₂ s pid a hr ht
  subst hr; subst ht
  exact ⟨rfl, rfl, rfl, rfl⟩

/-- C4 (witness): determinism instantiated on the concrete fixture. -/
theorem engine_deterministic_witness :
    createGame ps4 (fun _ => 0) 5 = createGame ps4 (fun _ => 0) 5 ∧
    processAction sLand "p1" (GameAction.PLAY_LAND "land1") 5 =
      processAction sLand "p1" (GameAction.PLAY_LAND "land1") 5 ∧
    advancePhase sLand 5 = advancePhase sLand 5 ∧
    resolveCombatDamage sLand 5 = resolveCombatDamage sLand 5 :=
  engine_deterministic_given_explicit_rand_and_clock ps4 (fun _ => 0) (fun _ => 0) 5 5
    sLand "p1" (GameAction.PLAY_LAND "land1") rfl rfl

/-- C5 (code bug): `getPower` on a card whose template has base power 0 and
two +1/+1 counters returns 0, not 2 — the falsy guard
`if (!card.template.power)` treats a present-but-zero base like an absent
one and skips the counter arithmetic. -/
theorem getPower_ignores_counters_on_zero_base :
    getPower zeroBaseCard = 0 ∧
    zeroBaseCard.template.power = some 0 ∧
    zeroBaseCard.counters.plusOnePlusOne = 2 := by
  decide

/-- C7 (counterexample): entering `end` from `main2` empties the non-active
player's mana pool too — `p2` held RRR before the call and none after,
though the claim says only the active player's pool is emptied. -/
theorem advancePhase_empties_nonactive_pool :
    sMain2After.players.map (fun p => p.manaPool.R) = [0, 0] ∧
    sMain2.players.map (fun p => p.manaPool.R) = [0, 3] ∧
    sMain2After.phase = Phase.endPhase := by
  decide

/-- C7 (amended): on entering `end`, `advancePhase` empties every player's
mana pool (the per-player index filter present for the untap/draw effects is
absent for the end-phase effect), not just the active player's. -/
theorem advancePhase_entering_end_empties_every_pool :
    ∀ (s : GameState) (now : Nat) (s' : GameState), s.phase = Phase.main2 →
      advancePhase s now = Except.ok s' →
      ∀ p ∈ s'.players, p.manaPool = createEmptyManaPool := by
  intro s now s' hph h p hp
  simp only [advancePhase, hph,
    show getNextPhase Phase.main2 = Phase.endPhase from by decide,
    if_neg (show ¬ (Phase.main2 = Phase.endPhase) from by decide)] at h
  injection h with h
  subst h
  have hp2 : p ∈ mapWithIndexFrom
      (advancePlayerUpdate Phase.endPhase s.currentPlayerIndex) 0 s.players := hp
  rcases mem_mapWithIndexFrom hp2 with ⟨i, a, ha, rfl⟩
  simp [advancePlayerUpdate, emptyManaPool]

/-- C7 (witness): the amended claim evaluated on the concrete `main2`
fixture whose non-active player holds mana. -/
theorem advancePhase_entering_end_empties_every_pool_witness :
    sMain2.phase = Phase.main2 ∧
    (∀ p ∈ sMain2After.players, p.manaPool = createEmptyManaPool) :=
  ⟨by decide,
   advancePhase_entering_end_empties_every_pool sMain2 0 sMain2After (by decide) (by decide)⟩

/-- C8 (confirmed): from phase `end` at turn N with a non-empty player list,
`advancePhase` yields phase `untap`, turn N+1, active player index rotated
modulo the player count, priority reset to the new active player, and that
player's battlefield untapped with summoning sickness cleared and the
played-a-land flag reset. -/
theorem advancePhase_end_rolls_turn :
    ∀ (s : GameState) (now : Nat), s.phase = Phase.endPhase → 0 < s.players.length →
      ∃ s', advancePhase s now = Except.ok s' ∧
        s'.phase = Phase.untap ∧
        s'.turn = s.turn + 1 ∧
        s'.currentPlayerIndex = (s.currentPlayerIndex + 1) % s.players.length ∧
        ∃ pOld pNew,
          s.players[(s.currentPlayerIndex + 1) % s.players.length]? = some pOld ∧
          s'.players[(s.currentPlayerIndex + 1) % s.players.length]? = some pNew ∧
          s'.activePlayerId = pOld.id ∧ s'.priorityPlayerId = pOld.id ∧
          pNew.id = pOld.id ∧ pNew.hasPlayedLand = false ∧
          ∀ c ∈ pNew.zones.battlefield, c.isTapped = false ∧ c.summoningSickness = false := by
  intro s now hph hlen
  have hidx : (s.currentPlayerIndex + 1) % s.players.length < s.players.length :=
    Nat.mod_lt _ hlen
  obtain ⟨pOld, hpOld⟩ :
      ∃ p, s.players[(s.currentPlayerIndex + 1) % s.players.length]? = some p := by
    rw [List.getElem?_eq_getElem hidx]
    exact ⟨_, rfl⟩
  simp only [advancePhase, hph,
    show getNextPhase Phase.endPhase = Phase.untap from by decide,
    eq_self_iff_true, if_true, hpOld, Option.map_some]
  refine ⟨_, rfl, rfl, rfl, rfl, pOld,
    advancePlayerUpdate Phase.untap ((s.currentPlayerIndex + 1) % s.players.length)
      ((s.currentPlayerIndex + 1) % s.players.length) pOld,
    rfl, ?_, rfl, rfl, ?_, ?_, ?_⟩
  · show (mapWithIndexFrom _ 0 s.players)[(s.currentPlayerIndex + 1) % s.players.length]? = _
    rw [getElem?_mapWithIndexFrom, hpOld]
    simp
  · simp [advancePlayerUpdate]
  · simp [advancePlayerUpdate]
  · intro c hc
    simp [advancePlayerUpdate] at hc
    rcases hc with ⟨c0, hc0, rfl⟩
    exact ⟨rfl, rfl⟩

/-- C8 (witness): the turn-boundary specification evaluated on the concrete
end-phase fixture. -/
theorem advancePhase_end_rolls_turn_witness :
    ∃ s', advancePhase sEnd 3 = Except.ok s' ∧
      s'.phase = Phase.untap ∧
      s'.turn = sEnd.turn + 1 ∧
      s'.currentPlayerIndex = (sEnd.currentPlayerIndex + 1) % sEnd.players.length ∧
      ∃ pOld pNew,
        sEnd.players[(sEnd.currentPlayerIndex + 1) % sEnd.players.length]? = some pOld ∧
        s'.players[(sEnd.currentPlayerIndex + 1) % sEnd.players.length]? = some pNew ∧
        s'.activePlayerId = pOld.id ∧ s'.priorityPlayerId = pOld.id ∧
        pNew.id = pOld.id ∧ pNew.hasPlayedLand = false ∧
        ∀ c ∈ pNew.zones.battlefield, c.isTapped = false ∧ c.summoningSickness = false :=
  advancePhase_end_rolls_turn sEnd 3 (by decide) (by decide)

/-- C9 (confirmed): `checkGameEnd` completes the game with the sole living
player as winner when exactly one player has positive life, completes it
with no winner when none has, and returns the state unchanged (the identity)
otherwise. -/
theorem checkGameEnd_spec :
    ∀ (s : GameState) (now : Nat),
      ((s.players.filter (fun p => p.life > 0)).length = 1 →
        ∃ w, s.players.filter (fun p => p.life > 0) = [w] ∧
          checkGameEnd s now =
            Except.ok { s with status := GameStatus.completed, winner := some w.id,
                               updatedAt := now }) ∧
      ((s.players.filter (fun p => p.life > 0)).length = 0 →
        checkGameEnd s now =
          Except.ok { s with status := GameStatus.completed, winner := none,
                             updatedAt := now }) ∧
      (2 ≤ (s.players.filter (fun p => p.life > 0)).length →
        checkGameEnd s now = Except.ok s) := by
  intro s now
  refine ⟨?_, ?_, ?_⟩
  · intro h1
    obtain ⟨w, hw⟩ := List.length_eq_one.mp h1
    refine ⟨w, hw, ?_⟩
    unfold checkGameEnd
    rw [hw]
    rfl
  · intro h0
    have hw := List.length_eq_zero.mp h0
    unfold checkGameEnd
    rw [hw]
    rfl
  · intro h2
    unfold checkGameEnd
    rw [if_neg (by omega), if_neg (by omega)]

/-- C9 (witness): the three branches on concrete states — lives [0,15,0]
(winner p2), lives [0,0] (draw), and two living players (unchanged). -/
theorem checkGameEnd_spec_witness :
    (∃ w, sWin.players.filter (fun p => p.life > 0) = [w] ∧
       checkGameEnd sWin 4 =
         Except.ok { sWin with status := GameStatus.completed, winner := some w.id,
                               updatedAt := 4 }) ∧
    checkGameEnd sDraw 4 =
      Except.ok { sDraw with status := GameStatus.completed, winner := none,
                             updatedAt := 4 } ∧
    checkGameEnd sLand 4 = Except.ok sLand :=
  ⟨(checkGameEnd_spec sWin 4).1 (by decide),
   (checkGameEnd_spec sDraw 4).2.1 (by decide),
   (checkGameEnd_spec sLand 4).2.2 (by decide)⟩

/-- C6 (counterexample): a blocked 7/7 Lifelink attacker, not trampling, whose
single blocker has toughness 2, actually assigns 2 damage, yet its controller
gains 7 life (20 → 27, not 20 → 22 as the claim requires). -/
theorem lifelink_blocked_attacker_gains_full_power :
    lifeOf c6res "p1" = some 27 ∧ lifeOf c6res "p1" ≠ some 22 := by
  decide

/-- C6 (amended): in the regular pass, a blocked Lifelink attacker's
controller gains life equal to the attacker's full power regardless of the
damage actually assigned to blockers; and in the first-strike pass, a
blocked Lifelink attacker grants no life at all (only unblocked attackers do
in that pass).  Shown for all powers `bp ≠ 0` on the blocked-by-a-2/2
combat shape: without First Strike the controller ends at `20 + bp`, with
First Strike at 20. -/
theorem lifelink_gain_is_full_power_or_absent :
    ∀ (bp : Nat), bp ≠ 0 →
      (∃ s', resolveCombatDamage (cLifelink [abilityOf "LIFELINK"] bp) 0 = Except.ok s' ∧
        lifeOf s' "p1" = some (20 + bp)) ∧
      (∃ s', resolveCombatDamage (cLifelink [abilityOf "LIFELINK", abilityOf "FIRST_STRIKE"] bp) 0
          = Except.ok s' ∧
        lifeOf s' "p1" = some 20) := by
  intro bp hbp
  constructor
  · simp [resolveCombatDamage, resolveFirstStrikeDamage, resolveRegularDamage,
      cleanupDeadCreatures, cleanupPlayer, fsAttackerStep, fsBlockerStep, regularAttackerStep,
      regularBlockerStep, findCard, updateCardInPlayers, updatePlayerLife, updateFirst,
      markDamage, cLifelink, baseState, mkPlayer, mkCard, tmplBig, tmplBear, abilityOf,
      emptyZones, hasFirstStrike, hasDoubleStrike, hasDeathtouch, hasLifelink, hasTrample,
      hasAbility, getPower, getToughness, shouldDie, lifeOf, hbp, createEmptyManaPool]
  · simp [resolveCombatDamage, resolveFirstStrikeDamage, resolveRegularDamage,
      cleanupDeadCreatures, cleanupPlayer, fsAttackerStep, fsBlockerStep, regularAttackerStep,
      regularBlockerStep, findCard, updateCardInPlayers, updatePlayerLife, updateFirst,
      markDamage, cLifelink, baseState, mkPlayer, mkCard, tmplBig, tmplBear, abilityOf,
      emptyZones, hasFirstStrike, hasDoubleStrike, hasDeathtouch, hasLifelink, hasTrample,
      hasAbility, getPower, getToughness, shouldDie, lifeOf, hbp, createEmptyManaPool]

/-- C6 (witness): the full-power lifelink gain at power 7 (life 27, not 22)
and the absent first-strike gain (life 20). -/
theorem lifelink_gain_witness :
    (∃ s', resolveCombatDamage (cLifelink [abilityOf "LIFELINK"] 7) 0 = Except.ok s' ∧
       lifeOf s' "p1" = some (20 + 7)) ∧
    (∃ s', resolveCombatDamage (cLifelink [abilityOf "LIFELINK", abilityOf "FIRST_STRIKE"] 7) 0
        = Except.ok s' ∧
       lifeOf s' "p1" = some 20) :=
  lifelink_gain_is_full_power_or_absent 7 (by decide)

/- ==================== zone-consistency lemmas ==================== -/

theorem updateFirst_map_of_proj {α β : Type} (l : List α) (pred : α → Bool) (f : α → α)
    (proj : α → β) (h : ∀ x, proj (f x) = proj x) :
    (updateFirst l pred f).map proj = l.map proj := by
  induction l with
  | nil => rfl
  | cons x xs ih =>
    unfold updateFirst
    split
    · simp [h]
    · simp [ih]

theorem find?_updateFirst_decomp {α : Type} {l : List α} {pred : α → Bool} {a : α}
    (h : l.find? pred = some a) (f : α → α) :
    ∃ l1 l2, l = l1 ++ a :: l2 ∧ updateFirst l pred f = l1 ++ f a :: l2 := by
  induction l with
  | nil => simp at h
  | cons x xs ih =>
    cases hpx : pred x with
    | true =>
      rw [List.find?_cons_of_pos _ hpx] at h
      injection h with h
      subst h
      refine ⟨[], xs, rfl, ?_⟩
      unfold updateFirst
      rw [if_pos hpx]
      rfl
    | false =>
      rw [List.find?_cons_of_neg _ (by simp [hpx])] at h
      rcases ih h with ⟨l1, l2, hl, hu⟩
      refine ⟨x :: l1, l2, by rw [hl]; rfl, ?_⟩
      unfold updateFirst
      rw [if_neg (by simp [hpx]), hu]
      rfl

theorem find?_removeFirst_decomp {α : Type} {l : List α} {pred : α → Bool} {a : α}
    (h : l.find? pred = some a) :
    ∃ l1 l2, l = l1 ++ a :: l2 ∧ removeFirst l pred = l1 ++ l2 := by
  induction l with
  | nil => simp at h
  | cons x xs ih =>
    cases hpx : pred x with
    | true =>
      rw [List.find?_cons_of_pos _ hpx] at h
      injection h with h
      subst h
      refine ⟨[], xs, rfl, ?_⟩
      unfold removeFirst
      rw [if_pos hpx]
      rfl
    | false =>
      rw [List.find?_cons_of_neg _ (by simp [hpx])] at h
      rcases ih h with ⟨l1, l2, hl, hu⟩
      refine ⟨x :: l1, l2, by rw [hl]; rfl, ?_⟩
      unfold removeFirst
      rw [if_neg (by simp [hpx]), hu]
      rfl

theorem foldl_preserves {α β : Type} (step : α → β → α) (P : α → Prop)
    (h : ∀ acc x, P acc → P (step acc x)) :
    ∀ (l : List β) (acc : α), P acc → P (l.foldl step acc)
  | [], _, hp => hp
  | x :: xs, acc, hp => foldl_preserves step P h xs (step acc x) (h acc x hp)

theorem tagOf_markDamage (n : Nat) (dt : Bool) (c : CardInPlay) :
    tagOf (markDamage n dt c) = tagOf c := by
  unfold markDamage tagOf
  split <;> rfl

theorem zTags_set_battlefield (z : Zones) (bf : List CardInPlay)
    (hbf : bf.map tagOf = z.battlefield.map tagOf) :
    zTags { z with battlefield := bf } = zTags z := by
  unfold zTags
  simp [hbf]

theorem zTags_updateCardInPlayers (players : List Player) (cid : String)
    (f : CardInPlay → CardInPlay) (hf : ∀ c, tagOf (f c) = tagOf c) :
    (updateCardInPlayers players cid f).map (fun p => zTags p.zones)
      = players.map (fun p => zTags p.zones) := by
  induction players with
  | nil => rfl
  | cons p ps ih =>
    unfold updateCardInPlayers
    split
    · simp only [List.map_cons]
      congr 1
      exact zTags_set_battlefield p.zones _
        (updateFirst_map_of_proj p.zones.battlefield _ f tagOf hf)
    · simp only [List.map_cons, ih]

theorem zTags_updatePlayerLife (players : List Player) (pid : String) (d : Int) :
    (updatePlayerLife players pid d).map (fun p => zTags p.zones)
      = players.map (fun p => zTags p.zones) := by
  unfold updatePlayerLife
  exact updateFirst_map_of_proj players _ _ (fun p => zTags p.zones) (fun x => rfl)

theorem all_zone_of_map_tag_eq {l l' : List CardInPlay} {zn : Zone}
    (h : l'.map tagOf = l.map tagOf) (hall : ∀ c ∈ l, c.zone = zn) :
    ∀ c ∈ l', c.zone = zn := by
  intro c hc
  have hmem : tagOf c ∈ l'.map tagOf := List.mem_map_of_mem _ hc
  rw [h] at hmem
  rcases List.mem_map.mp hmem with ⟨c0, hc0, htag⟩
  have hz : c0.zone = c.zone := congrArg Prod.snd htag
  rw [← hz]
  exact hall c0 hc0

theorem zonesOK_of_zTags_eq {z z' : Zones} (h : zTags z' = zTags z) (hok : zonesOK z) :
    zonesOK z' := by
  unfold zTags at h
  simp only [Prod.mk.injEq] at h
  obtain ⟨h1, h2, h3, h4, h5⟩ := h
  obtain ⟨k1, k2, k3, k4, k5, k6⟩ := hok
  refine ⟨all_zone_of_map_tag_eq h1 k1, all_zone_of_map_tag_eq h2 k2,
    all_zone_of_map_tag_eq h3 k3, all_zone_of_map_tag_eq h4 k4,
    all_zone_of_map_tag_eq h5 k5, ?_⟩
  have e' : (allZoneCards z').map tagOf = (allZoneCards z).map tagOf := by
    unfold allZoneCards
    simp only [List.map_append, h1, h2, h3, h4, h5]
  have hids : (allZoneCards z').map (fun c => c.instanceId)
      = (allZoneCards z).map (fun c => c.instanceId) := by
    calc (allZoneCards z').map (fun c => c.instanceId)
        = ((allZoneCards z').map tagOf).map Prod.fst := by rw [List.map_map]; rfl
      _ = ((allZoneCards z).map tagOf).map Prod.fst := by rw [e']
      _ = (allZoneCards z).map (fun c => c.instanceId) := by rw [List.map_map]; rfl
  rw [hids]
  exact k6

theorem zonesOK_all_of_zTags_players_eq {players' players : List Player}
    (h : players'.map (fun p => zTags p.zones) = players.map (fun p => zTags p.zones))
    (hall : ∀ p ∈ players, zonesOK p.zones) : ∀ p' ∈ players', zonesOK p'.zones := by
  intro p' hp'
  have hmem : zTags p'.zones ∈ players'.map (fun p => zTags p.zones) :=
    List.mem_map_of_mem _ hp'
  rw [h] at hmem
  rcases List.mem_map.mp hmem with ⟨p, hp, htag⟩
  exact zonesOK_of_zTags_eq htag.symm (hall p hp)

theorem fsAttackerStep_zTags (players : List Player) (atk : Attacker) :
    (fsAttackerStep players atk).map (fun p => zTags p.zones)
      = players.map (fun p => zTags p.zones) := by
  unfold fsAttackerStep
  dsimp only
  split
  · rfl
  · split
    · rfl
    · split
      · refine foldl_preserves _
          (fun pls => pls.map (fun p => zTags p.zones) = players.map (fun p => zTags p.zones))
          ?_ _ players rfl
        intro acc x hp
        rw [zTags_updateCardInPlayers acc x _ (fun c => tagOf_markDamage _ _ c)]
        exact hp
      · split
        · rfl
        · split
          · split
            · rw [zTags_updatePlayerLife]
            · rw [zTags_updatePlayerLife, zTags_updatePlayerLife]
          · rw [zTags_updatePlayerLife]

theorem fsBlockerStep_zTags (players : List Player) (blk : Blocker) :
    (fsBlockerStep players blk).map (fun p => zTags p.zones)
      = players.map (fun p => zTags p.zones) := by
  unfold fsBlockerStep
  dsimp only
  split
  · rfl
  · split
    · rfl
    · split
      · rfl
      · rw [zTags_updateCardInPlayers _ _ _ (fun c => tagOf_markDamage _ _ c)]

theorem regularBlockedFold_zTags (attackerCard : CardInPlay) (bl : List String)
    (acc0 : List Player × Nat) :
    ((bl.foldl (fun acc blockerId =>
        match findCard acc.1 blockerId with
        | none => acc
        | some blockerCard =>
          let damageToBlocker := min (getToughness blockerCard) acc.2
          let pls := updateCardInPlayers acc.1 blockerId
            (markDamage damageToBlocker (hasDeathtouch attackerCard))
          (pls, acc.2 - damageToBlocker)) acc0).1).map (fun p => zTags p.zones)
      = (acc0.1).map (fun p => zTags p.zones) := by
  refine foldl_preserves _
    (fun acc => acc.1.map (fun p => zTags p.zones) = (acc0.1).map (fun p => zTags p.zones))
    ?_ bl acc0 rfl
  intro acc x hp
  dsimp only
  split
  · exact hp
  · show (updateCardInPlayers acc.1 x _).map (fun p => zTags p.zones) = _
    rw [zTags_updateCardInPlayers acc.1 x _ (fun c => tagOf_markDamage _ _ c)]
    exact hp

theorem regularAttackerStep_zTags (players : List Player) (atk : Attacker) :
    (regularAttackerStep players atk).map (fun p => zTags p.zones)
      = players.map (fun p => zTags p.zones) := by
  unfold regularAttackerStep
  dsimp only
  repeat' split
  all_goals
    simp only [zTags_updatePlayerLife, regularBlockedFold_zTags]

theorem regularBlockerStep_zTags (players : List Player) (blk : Blocker) :
    (regularBlockerStep players blk).map (fun p => zTags p.zones)
      = players.map (fun p => zTags p.zones) := by
  unfold regularBlockerStep
  dsimp only
  repeat' split
  all_goals
    first
      | rfl
      | (rw [zTags_updatePlayerLife,
             zTags_updateCardInPlayers _ _ _ (fun c => tagOf_markDamage _ _ c)])
      | (rw [zTags_updateCardInPlayers _ _ _ (fun c => tagOf_markDamage _ _ c)])

theorem resolveFirstStrikeDamage_zTags (s : GameState) :
    (resolveFirstStrikeDamage s).players.map (fun p => zTags p.zones)
      = s.players.map (fun p => zTags p.zones) := by
  unfold resolveFirstStrikeDamage
  dsimp only
  refine foldl_preserves _
    (fun pls : List Player =>
      pls.map (fun p => zTags p.zones) = s.players.map (fun p => zTags p.zones))
    ?_ _ _ ?_
  · intro acc x hp
    rw [fsBlockerStep_zTags]
    exact hp
  · refine foldl_preserves _
      (fun pls : List Player =>
        pls.map (fun p => zTags p.zones) = s.players.map (fun p => zTags p.zones))
      ?_ _ _ rfl
    intro acc x hp
    rw [fsAttackerStep_zTags]
    exact hp

theorem resolveRegularDamage_zTags (s : GameState) :
    (resolveRegularDamage s).players.map (fun p => zTags p.zones)
      = s.players.map (fun p => zTags p.zones) := by
  unfold resolveRegularDamage
  dsimp only
  refine foldl_preserves _
    (fun pls : List Player =>
      pls.map (fun p => zTags p.zones) = s.players.map (fun p => zTags p.zones))
    ?_ _ _ ?_
  · intro acc x hp
    rw [regularBlockerStep_zTags]
    exact hp
  · refine foldl_preserves _
      (fun pls : List Player =>
        pls.map (fun p => zTags p.zones) = s.players.map (fun p => zTags p.zones))
      ?_ _ _ rfl
    intro acc x hp
    rw [regularAttackerStep_zTags]
    exact hp

theorem cleanupPlayer_zonesOK {p : Player} (hok : zonesOK p.zones) :
    zonesOK (cleanupPlayer p).zones := by
  obtain ⟨k1, k2, k3, k4, k5, k6⟩ := hok
  unfold cleanupPlayer
  dsimp only
  refine ⟨k1, k2, ?_, ?_, k5, ?_⟩
  · intro c hc
    exact k3 c (List.mem_of_mem_filter hc)
  · intro c hc
    rcases List.mem_append.mp hc with hc | hc
    · exact k4 c hc
    · rcases List.mem_map.mp hc with ⟨c0, hc0, rfl⟩
      rfl
  · have hDA : ((p.zones.battlefield.filter (fun card => shouldDie card)).map
          (fun c => c.instanceId)
        ++ (p.zones.battlefield.filter (fun card => !shouldDie card)).map
          (fun c => c.instanceId)).Perm
        (p.zones.battlefield.map (fun c => c.instanceId)) := by
      rw [← List.map_append]
      exact (List.filter_append_perm _ p.zones.battlefield).map _
    have hdm : ((p.zones.battlefield.filter (fun card => shouldDie card)).map
          (fun c => { c with zone := Zone.graveyard, damageMarked := 0 })).map
          (fun c => c.instanceId)
        = (p.zones.battlefield.filter (fun card => shouldDie card)).map
          (fun c => c.instanceId) := by
      rw [List.map_map]
      rfl
    have hperm : ((allZoneCards p.zones).map (fun c => c.instanceId)).Perm
        ((allZoneCards { p.zones with
            battlefield := p.zones.battlefield.filter (fun card => !shouldDie card),
            graveyard := p.zones.graveyard
              ++ (p.zones.battlefield.filter (fun card => shouldDie card)).map
                (fun c => { c with zone := Zone.graveyard, damageMarked := 0 }) }).map
          (fun c => c.instanceId)) := by
      unfold allZoneCards
      dsimp only
      simp only [List.map_append, hdm]
      rw [← Multiset.coe_eq_coe]
      have hDAm : ((↑((p.zones.battlefield.filter (fun card => shouldDie card)).map
            (fun c => c.instanceId)) : Multiset String)
          + ↑((p.zones.battlefield.filter (fun card => !shouldDie card)).map
            (fun c => c.instanceId)))
          = ↑(p.zones.battlefield.map (fun c => c.instanceId)) := by
        rw [Multiset.coe_add, Multiset.coe_eq_coe]
        exact hDA
      simp only [← Multiset.coe_add, ← hDAm]
      abel
    exact hperm.nodup k6

theorem zonesOK_untap (z : Zones) (hok : zonesOK z) :
    zonesOK { z with battlefield :=
      z.battlefield.map (fun card => { card with isTapped := false, summoningSickness := false }) } := by
  refine zonesOK_of_zTags_eq ?_ hok
  unfold zTags
  dsimp only
  rw [List.map_map]
  rfl

theorem zonesOK_draw (z : Zones) (d : CardInPlay) (rest : List CardInPlay)
    (hlib : z.library = d :: rest) (hok : zonesOK z) :
    zonesOK { z with library := rest, hand := z.hand ++ [{ d with zone := Zone.hand }] } := by
  obtain ⟨k1, k2, k3, k4, k5, k6⟩ := hok
  refine ⟨?_, ?_, k3, k4, k5, ?_⟩
  · intro c hc
    exact k1 c (by rw [hlib]; exact List.mem_cons_of_mem _ hc)
  · intro c hc
    rcases List.mem_append.mp hc with hc | hc
    · exact k2 c hc
    · rw [List.mem_singleton.mp hc]
  · refine List.Perm.nodup ?_ k6
    unfold allZoneCards
    dsimp only
    rw [hlib]
    simp only [List.map_append, List.map_cons, List.map_nil]
    rw [← Multiset.coe_eq_coe]
    simp only [← Multiset.coe_add, ← Multiset.cons_coe, ← Multiset.singleton_add,
      Multiset.coe_nil]
    abel

theorem advancePlayerUpdate_zonesOK (ph : Phase) (idx i : Nat) (p : Player)
    (hok : zonesOK p.zones) : zonesOK (advancePlayerUpdate ph idx i p).zones := by
  unfold advancePlayerUpdate
  dsimp only
  repeat' split
  all_goals
    first
      | exact hok
      | exact zonesOK_untap _ hok
      | exact zonesOK_draw _ _ _ (by assumption) hok
      | exact zonesOK_draw _ _ _ (by assumption) (zonesOK_untap _ hok)

theorem advancePhase_preserves_zonesConsistent (s : GameState) (now : Nat) (s' : GameState)
    (hc : zonesConsistent s) (h : advancePhase s now = Except.ok s') : zonesConsistent s' := by
  unfold advancePhase at h
  dsimp only at h
  split at h
  · cases h
  · injection h with h
    subst h
    intro p hp
    rcases mem_mapWithIndexFrom hp with ⟨i, a, ha, rfl⟩
    exact advancePlayerUpdate_zonesOK _ _ _ a (hc a ha)

theorem resolveCombatDamage_preserves_zonesConsistent (s : GameState) (now : Nat)
    (s' : GameState) (hc : zonesConsistent s) (h : resolveCombatDamage s now = Except.ok s') :
    zonesConsistent s' := by
  unfold resolveCombatDamage at h
  split at h
  · cases h
  · dsimp only at h
    injection h with h
    subst h
    intro p hp
    have hp2 : p ∈ (resolveRegularDamage (resolveFirstStrikeDamage s)).players.map cleanupPlayer :=
      hp
    rcases List.mem_map.mp hp2 with ⟨p0, hp0, rfl⟩
    apply cleanupPlayer_zonesOK
    have hT : (resolveRegularDamage (resolveFirstStrikeDamage s)).players.map
        (fun q => zTags q.zones) = s.players.map (fun q => zTags q.zones) := by
      rw [resolveRegularDamage_zTags, resolveFirstStrikeDamage_zTags]
    exact zonesOK_all_of_zTags_players_eq hT hc p0 hp0

theorem zonesOK_move_hand_to_battlefield (z : Zones) (pred : CardInPlay → Bool)
    (card : CardInPlay) (hfind : z.hand.find? pred = some card) (c' : CardInPlay)
    (hid : c'.instanceId = card.instanceId) (hzone : c'.zone = Zone.battlefield)
    (hok : zonesOK z) :
    zonesOK { z with hand := removeFirst z.hand pred,
                     battlefield := z.battlefield ++ [c'] } := by
  obtain ⟨k1, k2, k3, k4, k5, k6⟩ := hok
  obtain ⟨h1, h2, hh, hr⟩ := find?_removeFirst_decomp hfind
  refine ⟨k1, ?_, ?_, k4, k5, ?_⟩
  · intro c hc
    rw [hr] at hc
    apply k2
    rw [hh]
    rcases List.mem_append.mp hc with hc | hc
    · exact List.mem_append.mpr (Or.inl hc)
    · exact List.mem_append.mpr (Or.inr (List.mem_cons_of_mem _ hc))
  · intro c hc
    rcases List.mem_append.mp hc with hc | hc
    · exact k3 c hc
    · rw [List.mem_singleton.mp hc]
      exact hzone
  · refine List.Perm.nodup ?_ k6
    unfold allZoneCards
    dsimp only
    rw [hr, hh]
    simp only [List.map_append, List.map_cons, List.map_nil, hid]
    rw [← Multiset.coe_eq_coe]
    simp only [← Multiset.coe_add, ← Multiset.cons_coe, ← Multiset.singleton_add,
      Multiset.coe_nil]
    abel

theorem zonesOK_move_hand_to_graveyard (z : Zones) (pred : CardInPlay → Bool)
    (card : CardInPlay) (hfind : z.hand.find? pred = some card) (c' : CardInPlay)
    (hid : c'.instanceId = card.instanceId) (hzone : c'.zone = Zone.graveyard)
    (hok : zonesOK z) :
    zonesOK { z with hand := removeFirst z.hand pred,
                     graveyard := z.graveyard ++ [c'] } := by
  obtain ⟨k1, k2, k3, k4, k5, k6⟩ := hok
  obtain ⟨h1, h2, hh, hr⟩ := find?_removeFirst_decomp hfind
  refine ⟨k1, ?_, k3, ?_, k5, ?_⟩
  · intro c hc
    rw [hr] at hc
    apply k2
    rw [hh]
    rcases List.mem_append.mp hc with hc | hc
    · exact List.mem_append.mpr (Or.inl hc)
    · exact List.mem_append.mpr (Or.inr (List.mem_cons_of_mem _ hc))
  · intro c hc
    rcases List.mem_append.mp hc with hc | hc
    · exact k4 c hc
    · rw [List.mem_singleton.mp hc]
      exact hzone
  · refine List.Perm.nodup ?_ k6
    unfold allZoneCards
    dsimp only
    rw [hr, hh]
    simp only [List.map_append, List.map_cons, List.map_nil, hid]
    rw [← Multiset.coe_eq_coe]
    simp only [← Multiset.coe_add, ← Multiset.cons_coe, ← Multiset.singleton_add,
      Multiset.coe_nil]
    abel

theorem playLand_preserves_zonesConsistent (s : GameState) (pid iid : String) (now : Nat)
    (s' : GameState) (hc : zonesConsistent s)
    (h : (playLandM s pid iid now).2 = Except.ok s') : zonesConsistent s' := by
  unfold playLandM at h
  split at h
  · cases h
  · split at h
    · cases h
    · rename_i player hfp
      split at h
      · cases h
      · split at h
        · cases h
        · rename_i card hfc
          split at h
          · cases h
          · dsimp only at h
            injection h with h
            subst h
            intro p' hp'
            obtain ⟨l1, l2, hPl, hUp⟩ := find?_updateFirst_decomp hfp _
            have hp2 : p' ∈ l1 ++ _ :: l2 := hUp ▸ hp'
            rcases List.mem_append.mp hp2 with hmem | hmem
            · refine hc p' ?_
              rw [hPl]
              exact List.mem_append.mpr (Or.inl hmem)
            · rcases List.mem_cons.mp hmem with rfl | hmem
              · refine zonesOK_move_hand_to_battlefield player.zones _ card hfc _ rfl rfl ?_
                refine hc player ?_
                rw [hPl]
                exact List.mem_append.mpr (Or.inr (List.mem_cons_self _ _))
              · refine hc p' ?_
                rw [hPl]
                exact List.mem_append.mpr (Or.inr (List.mem_cons_of_mem _ hmem))

theorem castSpell_preserves_zonesConsistent (s : GameState) (pid iid : String)
    (targets : Option (List String)) (now : Nat) (s' : GameState) (hc : zonesConsistent s)
    (h : (castSpellM s pid iid targets now).2 = Except.ok s') : zonesConsistent s' := by
  unfold castSpellM at h
  split at h
  · cases h
  · rename_i player hfp
    split at h
    · cases h
    · rename_i card hfc
      dsimp only at h
      by_cases hct : canTakeAction s pid
          (if card.template.class' = CardClass.Instant then ActionSpeed.instant
           else ActionSpeed.sorcery) = true
      case neg =>
        rw [if_pos hct] at h
        cases h
      rw [if_neg (by simp [hct])] at h
      split at h
      · cases h
      · rename_i newManaPool hpay
        injection h with h
        subst h
        intro p' hp'
        obtain ⟨l1, l2, hPl, hUp⟩ := find?_updateFirst_decomp hfp _
        have hp2 : p' ∈ l1 ++ _ :: l2 := hUp ▸ hp'
        rcases List.mem_append.mp hp2 with hmem | hmem
        · refine hc p' ?_
          rw [hPl]
          exact List.mem_append.mpr (Or.inl hmem)
        · rcases List.mem_cons.mp hmem with rfl | hmem
          · have hokp : zonesOK player.zones := by
              refine hc player ?_
              rw [hPl]
              exact List.mem_append.mpr (Or.inr (List.mem_cons_self _ _))
            show zonesOK _
            dsimp only
            split
            · exact zonesOK_move_hand_to_battlefield player.zones _ card hfc _
                (by split <;> rfl) (by split <;> rfl) hokp
            · exact zonesOK_move_hand_to_graveyard player.zones _ card hfc _ rfl rfl hokp
          · refine hc p' ?_
            rw [hPl]
            exact List.mem_append.mpr (Or.inr (List.mem_cons_of_mem _ hmem))

theorem digitVal_digitChar (n : Nat) (h : n < 10) : digitVal (digitChar n) = n := by
  interval_cases n <;> rfl

theorem charsVal_append_singleton (xs : List Char) (c : Char) :
    charsVal (xs ++ [c]) = charsVal xs * 10 + digitVal c := by
  unfold charsVal
  rw [List.foldl_append]
  rfl

theorem charsVal_natToCharsAux :
    ∀ (fuel n : Nat), n < fuel → charsVal (natToCharsAux fuel n) = n := by
  intro fuel
  induction fuel with
  | zero => intro n h; omega
  | succ f ih =>
    intro n h
    unfold natToCharsAux
    split
    · rename_i h10
      show charsVal [digitChar n] = n
      unfold charsVal
      show 0 * 10 + digitVal (digitChar n) = n
      rw [digitVal_digitChar n h10]
      omega
    · rename_i h10
      rw [charsVal_append_singleton]
      have hdiv : n / 10 < f := by
        have h2 := Nat.div_lt_self (show 0 < n by omega) (show 1 < 10 by omega)
        omega
      rw [ih (n / 10) hdiv, digitVal_digitChar (n % 10) (Nat.mod_lt _ (by omega))]
      omega

theorem natToChars_injective (m n : Nat) (h : natToChars m = natToChars n) : m = n := by
  have hm := charsVal_natToCharsAux (m + 1) m (by omega)
  have hn := charsVal_natToCharsAux (n + 1) n (by omega)
  unfold natToChars at h
  rw [← hm, ← hn, h]

theorem cardId_injective (pid : String) :
    Function.Injective (fun i : Nat => pid ++ "-card-" ++ natToString i) := by
  intro i j h
  have h2 : (pid ++ "-card-").data ++ (natToString i).data
      = (pid ++ "-card-").data ++ (natToString j).data := congrArg String.data h
  have h3 := List.append_cancel_left h2
  exact natToChars_injective i j h3

theorem map_proj_mapWithIndexFrom {α β γ : Type} (f : Nat → α → β) (proj : β → γ)
    (g : Nat → γ) (hfg : ∀ i a, proj (f i a) = g i) :
    ∀ (n : Nat) (l : List α),
      (mapWithIndexFrom f n l).map proj = (List.range' n l.length).map g := by
  intro n l
  induction l generalizing n with
  | nil => rfl
  | cons x xs ih =>
    show proj (f n x) :: (mapWithIndexFrom f (n + 1) xs).map proj = _
    rw [List.length_cons, List.range'_succ]
    simp [hfg, ih]

theorem createGamePlayer_zonesOK (randJ : Nat → Nat) (i : Nat) (p : PlayerSpec) :
    zonesOK (createGamePlayer randJ i p).zones := by
  unfold createGamePlayer
  dsimp only
  refine ⟨?_, ?_, ?_, ?_, ?_, ?_⟩
  · intro c hc
    rcases mem_mapWithIndexFrom (List.drop_subset _ _ hc) with ⟨i', a, _, rfl⟩
    rfl
  · intro c hc
    rcases List.mem_map.mp hc with ⟨c0, _, rfl⟩
    rfl
  · intro c hc
    cases hc
  · intro c hc
    cases hc
  · intro c hc
    cases hc
  · unfold allZoneCards
    dsimp only
    have heq := map_proj_mapWithIndexFrom
      (fun cardIndex template =>
        ({ instanceId := p.id ++ "-card-" ++ natToString cardIndex,
           template := template, zone := Zone.library, ownerId := p.id,
           controllerId := p.id, isTapped := false,
           counters := { plusOnePlusOne := 0, minusOneMinusOne := 0 },
           damageMarked := 0, summoningSickness := false,
           attachedTo := none } : CardInPlay))
      (fun c => c.instanceId)
      (fun i2 => p.id ++ "-card-" ++ natToString i2)
      (fun _ _ => rfl) 0 (shuffleArray p.deck randJ)
    have hL : ((mapWithIndex (fun cardIndex template =>
        ({ instanceId := p.id ++ "-card-" ++ natToString cardIndex,
           template := template, zone := Zone.library, ownerId := p.id,
           controllerId := p.id, isTapped := false,
           counters := { plusOnePlusOne := 0, minusOneMinusOne := 0 },
           damageMarked := 0, summoningSickness := false,
           attachedTo := none } : CardInPlay))
        (shuffleArray p.deck randJ)).map (fun c => c.instanceId)).Nodup := by
      unfold mapWithIndex
      rw [heq]
      exact (List.nodup_range' 0 _).map (cardId_injective p.id)
    simp only [List.append_nil]
    rw [List.map_append]
    have h2 : ((List.take 7 (mapWithIndex (fun cardIndex template =>
        ({ instanceId := p.id ++ "-card-" ++ natToString cardIndex,
           template := template, zone := Zone.library, ownerId := p.id,
           controllerId := p.id, isTapped := false,
           counters := { plusOnePlusOne := 0, minusOneMinusOne := 0 },
           damageMarked := 0, summoningSickness := false,
           attachedTo := none } : CardInPlay))
        (shuffleArray p.deck randJ))).map
          (fun card => { card with zone := Zone.hand })).map (fun c => c.instanceId)
        = (List.take 7 (mapWithIndex (fun cardIndex template =>
        ({ instanceId := p.id ++ "-card-" ++ natToString cardIndex,
           template := template, zone := Zone.library, ownerId := p.id,
           controllerId := p.id, isTapped := false,
           counters := { plusOnePlusOne := 0, minusOneMinusOne := 0 },
           damageMarked := 0, summoningSickness := false,
           attachedTo := none } : CardInPlay))
        (shuffleArray p.deck randJ))).map (fun c => c.instanceId) := by
      rw [List.map_map]
      rfl
    rw [h2, List.map_drop, List.map_take]
    have hswap : ∀ (L : List String), L.Nodup → (L.drop 7 ++ L.take 7).Nodup := by
      intro L hnd
      refine List.Perm.nodup ?_ hnd
      have hp4 := @List.perm_append_comm _ (L.take 7) (L.drop 7)
      rw [List.take_append_drop] at hp4
      exact hp4
    exact hswap _ hL

theorem createGame_zonesConsistent (ps : List PlayerSpec) (randJ : Nat → Nat) (now : Nat)
    (s : GameState) (h : createGame ps randJ now = Except.ok s) : zonesConsistent s := by
  unfold createGame at h
  split at h
  · cases h
  · dsimp only at h
    split at h
    · cases h
    · injection h with h
      subst h
      intro p hp
      rcases mem_mapWithIndexFrom hp with ⟨i, a, _, rfl⟩
      exact createGamePlayer_zonesOK randJ i a

/-- C10 (confirmed): zone consistency — every card in a player's library,
hand, battlefield, graveyard or exile collection carries that collection's
zone tag, and each instance id occurs in exactly one collection — is
established by `createGame` and preserved by `playLand`, `castSpell`,
`advancePhase` (including its untap and draw effects) and
`resolveCombatDamage` (including the combat cleanup). -/
theorem engine_preserves_zone_consistency :
    (∀ (ps : List PlayerSpec) (randJ : Nat → Nat) (now : Nat) (s : GameState),
       createGame ps randJ now = Except.ok s → zonesConsistent s) ∧
    (∀ (s : GameState) (pid iid : String) (now : Nat) (s' : GameState), zonesConsistent s →
       (playLandM s pid iid now).2 = Except.ok s' → zonesConsistent s') ∧
    (∀ (s : GameState) (pid iid : String) (targets : Option (List String)) (now : Nat)
       (s' : GameState), zonesConsistent s →
       (castSpellM s pid iid targets now).2 = Except.ok s' → zonesConsistent s') ∧
    (∀ (s : GameState) (now : Nat) (s' : GameState), zonesConsistent s →
       advancePhase s now = Except.ok s' → zonesConsistent s') ∧
    (∀ (s : GameState) (now : Nat) (s' : GameState), zonesConsistent s →
       resolveCombatDamage s now = Except.ok s' → zonesConsistent s') :=
  ⟨fun ps randJ now s h => createGame_zonesConsistent ps randJ now s h,
   fun s pid iid now s' hc h => playLand_preserves_zonesConsistent s pid iid now s' hc h,
   fun s pid iid targets now s' hc h =>
     castSpell_preserves_zonesConsistent s pid iid targets now s' hc h,
   fun s now s' hc h => advancePhase_preserves_zonesConsistent s now s' hc h,
   fun s now s' hc h => resolveCombatDamage_preserves_zonesConsistent s now s' hc h⟩

/-- C10 (witness): zone consistency evaluated through the concrete
fixtures — the created game, a played land, a cast creature, and a phase
advance. -/
theorem engine_preserves_zone_consistency_witness :
    zonesConsistent gCreated ∧ zonesConsistent sLandAfter ∧ zonesConsistent sCastAfter ∧
    zonesConsistent sMain2After :=
  ⟨engine_preserves_zone_consistency.1 ps4 (fun _ => 0) 5 gCreated (by decide),
   engine_preserves_zone_consistency.2.1 sLand "p1" "land1" 9 sLandAfter (by decide) (by decide),
   engine_preserves_zone_consistency.2.2.1 sCast "p1" "bear1" none 9 sCastAfter (by decide)
     (by decide),
   engine_preserves_zone_consistency.2.2.2.1 sMain2 0 sMain2After (by decide) (by decide)⟩
